import Mathlib

/-! # The `mfs` filesystem simulator (`filesystem.c`)

A shallow embedding of the allocation engine of `filesystem.c` and the
properties its specification states about it.

**State.**

The program keeps everything in one global array `data[NUM_BLOCKS][BLOCK_SIZE]`
and reaches its tables through four pointers set in `initialization`:

* `free_blocks = (uint8_t *)&data[1000][0]` and
  `free_inodes = (uint8_t *)&data[19][0]` are byte pointers.  They are embedded
  exactly as the source defines them, as views of `data`: `free_blocks[i]` is the
  byte `data[1000 + i / 1024][i % 1024]`.  The loops over `free_blocks` run to
  `NUM_BLOCKS = 65536`, so the bitmap covers blocks 1000 .. 1063, while file data
  starts at `FIRST_DATA_BLOCK = 1001`.
* `directory` and `inodes` are struct pointers into blocks 0 and 20.  They are
  embedded as typed tables (`Nat → DirectoryEntry`, `Nat → Inode`) held next to
  `data`; the byte image of the structs inside `data` (which depends on struct
  layout) is not part of the embedding.  In the program the inode table is
  256 * 4104 bytes long and so reaches from block 20 into blocks 1000 .. 1045;
  the inode slots that share bytes with the bitmap are slots 244 .. 255.  Every
  operation below takes its inode from `findFreeInode` or from a directory entry,
  and starting from `createfs` that is always slot 0.

Machine integers: `short` and `int32_t` fields are `Int`, `uint8_t` and `uint32_t`
fields are `Nat`.  Strings are lists of byte values; a C string ends at the first
0 byte.
-/

namespace Mfs

/-! ## Constants (lines 35-43) -/

abbrev BLOCK_SIZE : Nat := 1024
abbrev NUM_BLOCKS : Nat := 65536
abbrev BLOCKS_PER_FILE : Nat := 1024
abbrev NUM_FILES : Nat := 256
abbrev FIRST_DATA_BLOCK : Nat := 1001
abbrev MAX_FILE_SIZE : Nat := 1048576
abbrev MAX_NAME_SIZE : Nat := 30
abbrev HIDDEN : Nat := 1
abbrev READONLY : Nat := 2

/-! ## Data model (lines 44-67) -/

/-- Record `struct _directoryEntry`: `char filename[64]; short in_use; int32_t inode`. -/
structure DirectoryEntry where
  filename : List Nat
  in_use : Int
  inode : Int
deriving DecidableEq

/-- Record `struct inode`: `int32_t blocks[BLOCKS_PER_FILE]; short in_use;
uint8_t attribute; uint32_t file_size`.  The field `attribute` is named
`attrib` here, `attribute` being a reserved word. -/
structure Inode where
  blocks : Nat → Int
  in_use : Int
  attrib : Nat
  file_size : Nat

/-- The global state: the block store `data` (block, offset) and the two struct
tables.  The two bitmaps are views of `data`, see `free_blocks`, `free_inodes`.
The tables are typed and held beside `data`.  In the program they are bytes of
`data` as well (the directory in blocks 0 .. 17, the inode slots from block 20
on): `directory` and the slots below 244 of `inodes` stand for bytes that no
bitmap and no data block shares, and `data` stands for block 19 and the blocks
from 1000 on.  The slots 244 .. 255 share their bytes with the free-block bitmap
and with data blocks; statements about them use the byte accesses of the section
on the inode table. -/
structure FS where
  data : Nat → Nat → Nat
  directory : Nat → DirectoryEntry
  inodes : Nat → Inode

/-- The host file system as the program sees it through `stat`, `fopen` and
`fread`: the bytes of the host file of a given name, if there is one. -/
abbrev Host := List Nat → Option (List Nat)

/-- Byte `free_blocks[i]`, with `free_blocks = (uint8_t *)&data[1000][0]` (line 109). -/
def free_blocks (fs : FS) (i : Nat) : Nat :=
  fs.data (1000 + i / BLOCK_SIZE) (i % BLOCK_SIZE)

/-- Byte `free_inodes[i]`, with `free_inodes = (uint8_t *)&data[19][0]` (line 110). -/
def free_inodes (fs : FS) (i : Nat) : Nat :=
  fs.data (19 + i / BLOCK_SIZE) (i % BLOCK_SIZE)

/-- Store of one byte into the block store. -/
def writeByte (d : Nat → Nat → Nat) (b o v : Nat) : Nat → Nat → Nat :=
  fun b1 o1 => if b1 = b ∧ o1 = o then v else d b1 o1

/-- Assignment `free_blocks[i] = v`.  A negative index addresses bytes below the
bitmap, outside what the embedding tracks; that store is left out, and the
statements about `deletefs` assume block entries of -1 or at least
`FIRST_DATA_BLOCK`. -/
def set_free_blocks (fs : FS) (i : Int) (v : Nat) : FS :=
  if i < 0 then fs
  else { fs with data := writeByte fs.data (1000 + i.toNat / BLOCK_SIZE) (i.toNat % BLOCK_SIZE) v }

/-- Assignment `directory[i] = e` (all fields). -/
def set_directory (fs : FS) (i : Nat) (e : DirectoryEntry) : FS :=
  { fs with directory := Function.update fs.directory i e }

/-- Assignment `inodes[i] = node` (all fields). -/
def set_inode (fs : FS) (i : Nat) (node : Inode) : FS :=
  { fs with inodes := Function.update fs.inodes i node }

/-- Assignment `free_inodes[i] = v`. -/
def set_free_inodes (fs : FS) (i : Nat) (v : Nat) : FS :=
  { fs with data := writeByte fs.data (19 + i / BLOCK_SIZE) (i % BLOCK_SIZE) v }

/-! ## C strings -/

/-- The C string held in a byte buffer: the bytes before the first 0. -/
def cstr (s : List Nat) : List Nat := s.takeWhile (fun c => c != 0)

/-- Function `strlen`. -/
def strlen (s : List Nat) : Nat := (cstr s).length

/-- Test `strcmp(a, b) == 0`. -/
def strcmp_eq (a b : List Nat) : Bool := cstr a == cstr b

/-- Call `strncpy(dest, src, n)`: the first `n` bytes of `dest` are replaced by the
string `src`, padded with 0 when it is shorter than `n`; no terminator is added
beyond `n`. -/
def strncpy (dest src : List Nat) (n : Nat) : List Nat :=
  (cstr src ++ List.replicate n 0).take n ++ dest.drop n

/-! ## Linear scans -/

/-- Loop `for (i = start; i < start + n; i++) if (p i) return i;`: the first index
at which `p` holds, scanning `n` indices upward from `start`. -/
def firstIndex (p : Nat → Bool) : Nat → Nat → Option Nat
  | 0, _ => none
  | n + 1, start => if p start then some start else firstIndex p n (start + 1)

/-- Function `findFreeBlock` (lines 79-86). -/
def findFreeBlock (fs : FS) : Int :=
  match firstIndex (fun i => free_blocks fs i != 0) NUM_BLOCKS 0 with
  | some i => (i : Int) + FIRST_DATA_BLOCK
  | none => -1

/-- Function `findFreeInode` (lines 88-95). -/
def findFreeInode (fs : FS) : Int :=
  match firstIndex (fun i => free_inodes fs i != 0) NUM_FILES 0 with
  | some i => (i : Int)
  | none => -1

/-- Function `findFreeInodeBlock` (lines 97-104). -/
def findFreeInodeBlock (fs : FS) (inode : Nat) : Int :=
  match firstIndex (fun i => (fs.inodes inode).blocks i == -1) BLOCKS_PER_FILE 0 with
  | some i => (i : Int)
  | none => -1

/-! ## createfs / initialization (lines 106-128, 467-488) -/

/-- The directory entry written by the initialisation loop. -/
def emptyEntry : DirectoryEntry :=
  { filename := List.replicate 64 0, in_use := 0, inode := -1 }

/-- The inode written by the initialisation loop. -/
def emptyInode : Inode :=
  { blocks := fun _ => -1, in_use := 0, attrib := 0, file_size := 0 }

/-- The state left by `createfs` (and by `initialization` on the zero-initialised
global): `data` is zeroed, every directory entry and inode is reset,
`free_inodes[i] = 1` for `i < NUM_FILES` and `free_blocks[j] = 1` for
`j < NUM_BLOCKS`, that is every byte of blocks 1000 .. 1063.  The inner loop
`for (j = 0; j < NUM_BLOCKS; j++) inodes[i].blocks[j] = -1` runs past the 1024
entries of the block list; the typed inode table keeps the stores with
`j < BLOCKS_PER_FILE`, the stores beyond the struct are not tracked, and neither
is the effect of the bitmap initialisation on the inode slots 244 .. 255 that
share its bytes. -/
def createfs : FS :=
  { data := fun b o =>
      if (1000 ≤ b ∧ b < 1000 + NUM_BLOCKS / BLOCK_SIZE ∧ o < BLOCK_SIZE) ∨ (b = 19 ∧ o < NUM_FILES)
      then 1 else 0
    directory := fun _ => emptyEntry
    inodes := fun _ => emptyInode }

/-! ## dffs (lines 317-327) -/

/-- Function `dffs`: the number of non-zero bytes among `free_blocks[0 .. NUM_BLOCKS)`
times `BLOCK_SIZE`. -/
def dffs (fs : FS) : Nat :=
  Nat.count (fun i => free_blocks fs i ≠ 0) NUM_BLOCKS * BLOCK_SIZE

/-! ## insertfs (lines 329-438) -/

/-- Which `return` of `insertfs` was taken (the function itself returns `void` and
reports through `perror`). -/
inductive InsertOutcome where
  | inserted
  | file_not_exist
  | name_too_long
  | too_big
  | no_space
  | no_directory_entry
  | no_inode
  | no_block
deriving DecidableEq

/-- Call `fread(data[b], BLOCK_SIZE, 1, ifp)` with `chunk` the bytes left in the
file from the current offset (at most `BLOCK_SIZE` of them): they overwrite the
start of block `b`; the rest of the block keeps its old bytes. -/
def storeChunk (d : Nat → Nat → Nat) (b : Nat) (chunk : List Nat) : Nat → Nat → Nat :=
  fun b1 o => if b1 = b ∧ o < chunk.length then chunk.getD o 0 else d b1 o

/-- Assignment `inodes[inode].blocks[k] = v`.  With `k = -1` (what
`findFreeInodeBlock` returns for a full block list) the store goes to the four
bytes in front of the block list, outside the typed table; it is left out. -/
def set_inode_block (fs : FS) (inode : Nat) (k : Int) (v : Int) : FS :=
  if k < 0 then fs
  else
    set_inode fs inode { fs.inodes inode with blocks := Function.update (fs.inodes inode).blocks k.toNat v }

/-- The body of the copy loop of `insertfs` after `findFreeBlock` has returned
`block_index` (lines 413-416): the block is filled from the file at `offset` and
recorded in the first unused entry of the block list of the inode. -/
def insertStep (content : List Nat) (inode_index : Nat) (offset : Nat) (block_index : Int)
    (fs : FS) : FS :=
  let chunk := (content.drop offset).take BLOCK_SIZE
  let fs1 : FS := { fs with data := storeChunk fs.data block_index.toNat chunk }
  let inode_block := findFreeInodeBlock fs1 inode_index
  set_inode_block fs1 inode_index inode_block block_index

/-- The copy loop `while (copy_size > 0)` of `insertfs` (lines 399-434). -/
def insertLoop (content : List Nat) (inode_index : Nat) (copy_size : Int) (offset : Nat)
    (fs : FS) : InsertOutcome × FS :=
  if _h : copy_size > 0 then
    let block_index := findFreeBlock fs
    if block_index = -1 then (InsertOutcome.no_block, fs)
    else
      insertLoop content inode_index (copy_size - BLOCK_SIZE) (offset + BLOCK_SIZE)
        (insertStep content inode_index offset block_index fs)
  else (InsertOutcome.inserted, fs)
termination_by copy_size.toNat
decreasing_by all_goals (simp only [BLOCK_SIZE] at *; omega)

/-- Function `insertfs`.  The result pairs the `return` taken with the state left. -/
def insertfs (fs : FS) (host : Host) (filename : List Nat) : InsertOutcome × FS :=
  match host filename with
  | none => (InsertOutcome.file_not_exist, fs)
  | some content =>
    if strlen filename > MAX_NAME_SIZE then (InsertOutcome.name_too_long, fs)
    else if content.length > MAX_FILE_SIZE then (InsertOutcome.too_big, fs)
    else if content.length > dffs fs then (InsertOutcome.no_space, fs)
    else
      match firstIndex (fun i => (fs.directory i).in_use == 0) NUM_FILES 0 with
      | none => (InsertOutcome.no_directory_entry, fs)
      | some directory_entry =>
        let inode_index := findFreeInode fs
        if inode_index = -1 then (InsertOutcome.no_inode, fs)
        else
          let entry : DirectoryEntry :=
            { filename := strncpy (fs.directory directory_entry).filename filename (strlen filename)
              in_use := 1
              inode := inode_index }
          let fs1 := set_directory fs directory_entry entry
          let fs2 := set_inode fs1 inode_index.toNat
            { fs1.inodes inode_index.toNat with file_size := content.length }
          insertLoop content inode_index.toNat content.length 0 fs2

/-! ## retrievefs (lines 130-190) -/

/-- Conversion of a file size to `int32_t` (`int32_t copy_size = buf.st_size`): the
value modulo 2^32, read as a two's complement number. -/
def toInt32 (n : Nat) : Int :=
  if n % 4294967296 < 2147483648 then ((n % 4294967296 : Nat) : Int)
  else ((n % 4294967296 : Nat) : Int) - 4294967296

/-- The copy loop `while (copy_size > 0)` of `retrievefs` (lines 172-186): the bytes
written to the output file.  Every write but the last is `BLOCK_SIZE` long and
the file position is then set to the next multiple of `BLOCK_SIZE`, so the file
is the concatenation of the writes. -/
def retrieveLoop (data : Nat → Nat → Nat) (copy_size : Int) (block_index : Nat) : List Nat :=
  if _h : copy_size > 0 then
    let num_bytes : Nat := if copy_size < BLOCK_SIZE then copy_size.toNat else BLOCK_SIZE
    (List.range num_bytes).map (data block_index)
      ++ retrieveLoop data (copy_size - BLOCK_SIZE) (block_index + 1)
  else []
termination_by copy_size.toNat
decreasing_by all_goals (simp only [BLOCK_SIZE] at *; omega)

/-- The directory search shared by `retrievefs`, `deletefs`, `undelfs`: the first
entry that is in use and whose name compares equal to `filename`. -/
def lookup (fs : FS) (filename : List Nat) : Option Nat :=
  firstIndex (fun i => decide ((fs.directory i).in_use ≠ 0) && strcmp_eq (fs.directory i).filename filename)
    NUM_FILES 0

/-- Function `retrievefs`: the bytes written to the output file, `none` when the
function returns before writing (no host file of that name, or file not found
in the directory).  Which host file receives the output (`newfilename`, or
`filename` itself) has no bearing on the bytes. -/
def retrievefs (fs : FS) (host : Host) (filename : List Nat) : Option (List Nat) :=
  match host filename with
  | none => none
  | some content =>
    match lookup fs filename with
    | none => none
    | some i =>
      if (fs.directory i).inode = -1 then none
      else some (retrieveLoop fs.data (toInt32 content.length) 0)

/-! ## deletefs / undelfs (lines 237-288) -/

/-- The loop `for (i = 0; i < n; i++)` of `deletefs` (lines 258-264) over the block
list of inode `inode_index`. -/
def deleteBlocks (inode_index : Nat) : Nat → FS → FS
  | 0, fs => fs
  | n + 1, fs =>
    let fs1 := deleteBlocks inode_index n fs
    let block_index := (fs1.inodes inode_index).blocks n
    if block_index ≠ -1 then
      set_inode_block (set_free_blocks fs1 (block_index - FIRST_DATA_BLOCK) 1) inode_index n (-1)
    else fs1

/-- Function `deletefs`.  The result pairs `file_found` with the state left. -/
def deletefs (fs : FS) (filename : List Nat) : Bool × FS :=
  match lookup fs filename with
  | none => (false, fs)
  | some i =>
    let inode_index := ((fs.directory i).inode).toNat
    let cleared : DirectoryEntry := { filename := List.replicate 64 0, in_use := 0, inode := -1 }
    let fs1 := set_directory fs i cleared
    let fs2 := deleteBlocks inode_index BLOCKS_PER_FILE fs1
    let fs3 := set_free_inodes fs2 inode_index 1
    (true, set_inode fs3 inode_index
      { fs3.inodes inode_index with in_use := 0, attrib := 0, file_size := 0 })

/-- Function `undelfs`.  The result pairs "a matching entry was found" with the
state left. -/
def undelfs (fs : FS) (filename : List Nat) : Bool × FS :=
  match lookup fs filename with
  | none => (false, fs)
  | some i =>
    let inode_index := ((fs.directory i).inode).toNat
    let fs1 := set_directory fs i { fs.directory i with in_use := 1 }
    (true, set_inode fs1 inode_index { fs1.inodes inode_index with in_use := 1 })

/-! ## listfs (lines 290-315) -/

/-- One line printed by `listfs`.  Field `index` is the directory index whose
loop iteration printed it; `attrib` is `some a` for a line of the form
`"%s - %d"` and `none` for a line of the form `"%s"`. -/
structure ListLine where
  index : Nat
  name : List Nat
  attrib : Option Nat
deriving DecidableEq

/-- The lines printed by iteration `i` of the loop of `listfs`. -/
def listEntry (fs : FS) (show_hidden show_attributes : Int) (i : Nat) : List ListLine :=
  (if show_hidden = 0 ∧ (fs.directory i).filename.getD 0 0 = 46
    then [{ index := i, name := cstr (fs.directory i).filename, attrib := none }] else [])
  ++ (if show_attributes ≠ 0
    then [{ index := i, name := cstr (fs.directory i).filename,
            attrib := some (fs.inodes i).attrib }] else [])

/-- The lines printed by the first `n` iterations of the loop of `listfs`. -/
def listLines (fs : FS) (show_hidden show_attributes : Int) : Nat → List ListLine
  | 0 => []
  | n + 1 => listLines fs show_hidden show_attributes n ++ listEntry fs show_hidden show_attributes n

/-- Function `listfs`: the lines printed, and the final value of `not_found`
(whether "No files found" is reported). -/
def listfs (fs : FS) (show_hidden show_attributes : Int) : List ListLine × Bool :=
  (listLines fs show_hidden show_attributes NUM_FILES,
   decide (∀ i < NUM_FILES, (fs.directory i).in_use = 0))

/-! ## attribfs (lines 501-534) -/

/-- Assignment to `inodes[inode].attribute`. -/
def set_attribute (fs : FS) (inode : Nat) (a : Nat) : FS :=
  set_inode fs inode { fs.inodes inode with attrib := a }

/-- The body of the `for` loop of `attribfs` at directory index `i`, up to the
`break`: `file_found` and the state left. -/
def attribBody (fs : FS) (filename : List Nat) (attri set : Int) (i : Nat) : Bool × FS :=
  let inode_index := ((fs.directory i).inode).toNat
  if (fs.directory i).in_use ≠ 0 ∧ strcmp_eq (fs.directory i).filename filename = true then
    if set = 1 then
      let fs1 := if attri = 1
        then set_attribute fs inode_index ((fs.inodes inode_index).attrib ||| HIDDEN) else fs
      let fs2 := if attri = 2
        then set_attribute fs1 inode_index ((fs1.inodes inode_index).attrib ||| READONLY) else fs1
      (true, fs2)
    else
      let fs1 := if attri = 1 ∧ (fs.inodes i).attrib &&& HIDDEN ≠ 0
        then set_attribute fs inode_index ((fs.inodes inode_index).attrib &&& (255 - HIDDEN)) else fs
      let fs2 := if attri = 2 ∧ (fs1.inodes i).attrib &&& READONLY ≠ 0
        then set_attribute fs1 inode_index ((fs1.inodes inode_index).attrib &&& (255 - READONLY)) else fs1
      (true, fs2)
  else (false, fs)

/-- Function `attribfs`.  The `break` on line 529 closes the loop body, not the
`if` that tests the entry, so the loop (`NUM_FILES > 0`) runs its body once,
at `i = 0`, and stops.  The result pairs `file_found` with the state left. -/
def attribfs (fs : FS) (filename : List Nat) (attri set : Int) : Bool × FS :=
  attribBody fs filename attri set 0

/-! ## dffs as a command (lines 317-327, 813-819) -/

/-- Function `dffs` as a call on the global state: the value returned and the state
left.  The body reads `free_blocks` and writes only its local `count`. -/
def dffs_call (fs : FS) : Nat × FS := (dffs fs, fs)

/-! ## encryptfs / decryptfs (lines 536-686) -/

/-- Which `return` of `encryptfs` / `decryptfs` was taken. -/
inductive CryptOutcome where
  | done
  | file_not_found
  | too_big
  | no_inode
  | no_block
deriving DecidableEq

/-- Call `strcpy(dest, src)`: the string `src` and its terminating 0 replace the
start of `dest`.  This is the call for a string shorter than `dest`; a longer one
is written past the end of the field by the program, which the list does not
show. -/
def strcpy (dest src : List Nat) : List Nat :=
  cstr src ++ [0] ++ dest.drop (strlen src + 1)

/-- The lines "Find or allocate an inode for the file" (555-577): the value of
`inode_index` before the block loop and the state then.  When no in-use entry
carries the name (or its inode link is -1) the first free inode slot `k` is
taken, directory entry `k` (not the first free directory entry) is set to the
name with inode link `k`, and `free_inodes[k]` is cleared.  The value -1 means
that no inode slot was free. -/
def cryptInode (fs : FS) (filename : List Nat) : Int × FS :=
  let found : Int :=
    match lookup fs filename with
    | some i => (fs.directory i).inode
    | none => -1
  if found = -1 then
    let inode_index := findFreeInode fs
    if inode_index = -1 then (-1, fs)
    else
      let k := inode_index.toNat
      let entry : DirectoryEntry :=
        { filename := strcpy (fs.directory k).filename filename, in_use := 1, inode := inode_index }
      (inode_index, set_free_inodes (set_directory fs k entry) k 0)
  else (found, fs)

/-- Assignment of the four fields written in pass `i == 0` of the block loop
(lines 586-589). -/
def set_first_block (fs : FS) (inode : Nat) (block_index : Int) (file_size : Int) : FS :=
  set_inode fs inode
    { blocks := Function.update (fs.inodes inode).blocks 0 block_index
      in_use := 1
      attrib := 0
      file_size := (file_size % 2 ^ 32).toNat }

/-- The filesystem side of pass `i` of the block loop (lines 585-595) after
`findFreeBlock` has returned `block_index`: the block is recorded in the inode
and its free-block flag is cleared.  No byte of the file is stored in the block. -/
def cryptStep (inode_index : Nat) (file_size : Int) (i : Nat) (block_index : Int) (fs : FS) : FS :=
  let fs1 :=
    if i = 0 then set_first_block fs inode_index block_index file_size
    else set_inode_block fs inode_index (findFreeInodeBlock fs inode_index) block_index
  set_free_blocks fs1 (block_index - FIRST_DATA_BLOCK) 0

/-- The host-file side of pass `i` of the block loop (lines 597-605): up to
`BLOCK_SIZE` bytes are read at the current position (`i * BLOCK_SIZE`, where the
previous write ended) into a zeroed buffer, all `BLOCK_SIZE` bytes of the buffer
are XOR-ed with `cipher`, and the buffer is written back at `i * BLOCK_SIZE`. -/
def xorBlock (file : List Nat) (cipher : Nat) (i : Nat) : List Nat :=
  let chunk := (file.drop (i * BLOCK_SIZE)).take BLOCK_SIZE
  let buf := (chunk ++ List.replicate (BLOCK_SIZE - chunk.length) 0).map (fun c => c ^^^ cipher)
  file.take (i * BLOCK_SIZE) ++ buf ++ file.drop ((i + 1) * BLOCK_SIZE)

/-- The loop `for (i = 0; i < blocks_needed; i++)` (lines 579-606), with `n` passes
left and `i` the next index: whether it ran to its end, the state and the host
file left. -/
def cryptLoop (inode_index : Nat) (file_size : Int) (cipher : Nat) :
    Nat → Nat → FS → List Nat → Bool × FS × List Nat
  | 0, _, fs, file => (true, fs, file)
  | n + 1, i, fs, file =>
    let block_index := findFreeBlock fs
    if block_index = -1 then (false, fs, file)
    else
      cryptLoop inode_index file_size cipher n (i + 1)
        (cryptStep inode_index file_size i block_index fs) (xorBlock file cipher i)

/-- The common body of `encryptfs` and `decryptfs`: the `return` taken, the state
and the host left.  `cipher` is the `uint8_t` key. -/
def cryptfs (fs : FS) (host : Host) (filename : List Nat) (cipher : Nat) :
    CryptOutcome × FS × Host :=
  match host filename with
  | none => (CryptOutcome.file_not_found, fs, host)
  | some content =>
    let file_size := toInt32 content.length
    if file_size > MAX_FILE_SIZE then (CryptOutcome.too_big, fs, host)
    else
      let blocks_needed := Int.tdiv file_size BLOCK_SIZE + 1
      let start := cryptInode fs filename
      if start.1 = -1 then (CryptOutcome.no_inode, fs, host)
      else
        let r := cryptLoop start.1.toNat file_size cipher blocks_needed.toNat 0 start.2 content
        (if r.1 then CryptOutcome.done else CryptOutcome.no_block,
          r.2.1, Function.update host filename (some r.2.2))

/-- Function `encryptfs` (lines 536-610). -/
def encryptfs (fs : FS) (host : Host) (filename : List Nat) (cipher : Nat) :
    CryptOutcome × FS × Host :=
  cryptfs fs host filename cipher

/-- Function `decryptfs` (lines 615-686); its body repeats that of `encryptfs`
statement for statement, only the final message differs. -/
def decryptfs (fs : FS) (host : Host) (filename : List Nat) (cipher : Nat) :
    CryptOutcome × FS × Host :=
  cryptfs fs host filename cipher

/-! ## States used in the statements -/

/-- The entry `insertfs` writes into a directory slot reset by the initialisation. -/
def freshEntry (filename : List Nat) : DirectoryEntry :=
  { filename := strncpy (List.replicate 64 0) filename (strlen filename), in_use := 1, inode := 0 }

/-- The state of a fresh filesystem at the start of the copy loop of `insertfs`. -/
def freshStart (filename content : List Nat) : FS :=
  set_inode (set_directory createfs 0 (freshEntry filename)) 0
    { emptyInode with file_size := content.length }

/-- The host with a single file `name` holding `content`. -/
def hostOf (name content : List Nat) : Host :=
  fun n => if n = name then some content else none

/-- The file name `a`. -/
def nameA : List Nat := [97]

/-- The file name `b`. -/
def nameB : List Nat := [98]

/-- The state left by `createfs` followed by `insert name`, for a host file `name`
of at most one block with bytes `content` (see `insertfs_createfs_small`). -/
def stateOne (name content : List Nat) : FS :=
  { data := storeChunk createfs.data 1001 content
    directory := Function.update createfs.directory 0 (freshEntry name)
    inodes := Function.update createfs.inodes 0
      { blocks := Function.update (fun _ => -1) 0 1001
        in_use := 0
        attrib := 0
        file_size := content.length } }

/-- The file name `.a`. -/
def nameDotA : List Nat := [46, 97]

/-- The state left by `createfs; insert a; insert b` for one-byte host files `a`
(byte 98) and `b` (byte 99), see `insertfs_second_eq`: both directory entries
link to inode 0, whose block list holds block 1001 twice. -/
def stateAB : FS :=
  { data := storeChunk (stateOne nameA [98]).data 1001 [99]
    directory := Function.update (stateOne nameA [98]).directory 1 (freshEntry nameB)
    inodes := Function.update createfs.inodes 0
      { blocks := Function.update (Function.update (fun _ => -1) 0 1001) 1 1001
        in_use := 0
        attrib := 0
        file_size := 1 } }

/-- The state left by `createfs; insert name; attrib +h name` for a one-byte host
file `name` (byte 98), see `attribfs_stateOne`. -/
def stateHidden (name : List Nat) : FS := set_attribute (stateOne name [98]) 0 1

/-- A state that `insertfs` treats like a fresh one: directory entry 0 is reset, the
block list of inode 0 is empty, `free_inodes[0]` is set, and the 1024 bytes of
block 1000 (`free_blocks[0 .. 1024)`) are set. -/
def SlotZeroFree (fs : FS) : Prop :=
  fs.directory 0 = emptyEntry ∧ (∀ k, (fs.inodes 0).blocks k = -1) ∧
    free_inodes fs 0 ≠ 0 ∧ ∀ i, i < 1024 → free_blocks fs i ≠ 0

/-- The number of passes of the copy loop of `insertfs` for a file of `n` bytes,
`ceil(n / BLOCK_SIZE)`. -/
def blocksFor (n : Nat) : Nat := (n + (BLOCK_SIZE - 1)) / BLOCK_SIZE

/-- The state left by `createfs; encrypt a <key>` for a one-byte host file `a` that
is not in the filesystem, see `encryptfs_createfs_small`: directory entry 0 and
inode 0 are taken for `a`, block 1001 is put in the block list, and
`free_inodes[0]` and `free_blocks[0]` are cleared. -/
def stateEncrypted : FS :=
  set_free_blocks
    (set_first_block
      (set_free_inodes
        (set_directory createfs 0
          { filename := strcpy (List.replicate 64 0) nameA, in_use := 1, inode := 0 })
        0 0)
      0 1001 1)
    0 0

/-- The number of valid entries (entries other than -1) in the block list of an
inode. -/
def validBlocks (node : Inode) : Nat :=
  Nat.count (fun k => node.blocks k ≠ -1) BLOCKS_PER_FILE

/-- The host left by `createfs; encrypt a 5` for the one-byte host file `a` (byte
98), see `encryptfs_createfs_host`: the file holds the whole 1024-byte buffer,
byte 98 and 1023 padding bytes 0, each XOR-ed with 5. -/
def hostEncrypted : Host :=
  Function.update (hostOf nameA [98]) nameA (some (103 :: List.replicate 1023 5))

/-- A call of the shell that changes the directory: `insert <filename>` made while
the host is `host`, or `delete <filename>`. -/
inductive Call where
  | insert (host : Host) (filename : List Nat)
  | delete (filename : List Nat)

/-- The state left by one call. -/
def runCall (fs : FS) : Call → FS
  | Call.insert host filename => (insertfs fs host filename).2
  | Call.delete filename => (deletefs fs filename).2

/-- The state left by a sequence of calls, made one after the other. -/
def runCalls : FS → List Call → FS
  | fs, [] => fs
  | fs, c :: rest => runCalls (runCall fs c) rest

/-- No `insert` of the sequence is made with a name that an in-use directory entry
carries at the time of the call (the directory search for the name fails). -/
def freshNames : FS → List Call → Bool
  | _, [] => true
  | fs, Call.insert host filename :: rest =>
    (lookup fs filename).isNone && freshNames (runCall fs (Call.insert host filename)) rest
  | fs, Call.delete filename :: rest => freshNames (runCall fs (Call.delete filename)) rest

/-- No two in-use directory entries carry the same filename (`strcmp` of the two
names is 0). -/
def NamesUnique (fs : FS) : Prop :=
  ∀ i, i < NUM_FILES → ∀ j, j < NUM_FILES →
    (fs.directory i).in_use ≠ 0 → (fs.directory j).in_use ≠ 0 →
    strcmp_eq (fs.directory i).filename (fs.directory j).filename = true → i = j

/-- The sequence `insert a; insert a` with a one-byte host file `a`. -/
def callsTwice : List Call :=
  [Call.insert (hostOf nameA [98]) nameA, Call.insert (hostOf nameA [98]) nameA]

/-- The sequence `insert a; insert b; delete a` with one-byte host files. -/
def callsThree : List Call :=
  [Call.insert (hostOf nameA [98]) nameA, Call.insert (hostOf nameB [99]) nameB,
    Call.delete nameA]

/-- What the directory looks like after calls of `insertfs` and `deletefs` that
never insert a name in use: an entry not in use has the zeroed name, no entry at
or beyond `NUM_FILES` is in use, and the names of the in-use entries are
pairwise different. -/
def DirInv (fs : FS) : Prop :=
  (∀ i, (fs.directory i).in_use = 0 → (fs.directory i).filename = List.replicate 64 0) ∧
  (∀ i, NUM_FILES ≤ i → (fs.directory i).in_use = 0) ∧
  NamesUnique fs


/-! ## The inode table where the program keeps it (lines 57-62, 108)

`initialization` sets `inodes = (struct inode *)&data[20][0]`.  A `struct inode`
takes 4104 bytes: `blocks` the bytes 0 .. 4095, the `short in_use` the bytes 4096
and 4097, `attribute` the byte 4098, one byte of padding, and `file_size` the
bytes 4100 .. 4103.  Slot `i` starts at byte `i * 4104` counted from block 20, so
the slots 0 .. 243 end before block 998 and the slots 244 .. 255 take bytes of
the blocks 997 .. 1045: from block 1000 on these are the bytes of the free-block
bitmap and of the data blocks 1001 .. 1045.  The typed table `FS.inodes` stands
for the slots below 244; from slot 244 on the definitions of this section access
a field of a slot as the bytes of `data` it is made of. -/

/-- The size of a `struct inode` in bytes. -/
abbrev INODE_BYTES : Nat := 4104

/-- The inode slots whose bytes lie before block 1000, apart from both bitmaps and
from every data block: `244 * INODE_BYTES` bytes from block 20 end in block 997. -/
abbrev LOW_INODES : Nat := 244

/-- Byte `((uint8_t *)&data[b][0])[k]`: the rows of `data` follow each other in
memory. -/
def byteFrom (fs : FS) (b k : Nat) : Nat :=
  fs.data (b + k / BLOCK_SIZE) (k % BLOCK_SIZE)

/-- Store of the byte `v` at `((uint8_t *)&data[b][0])[k]`. -/
def setByteFrom (fs : FS) (b k v : Nat) : FS :=
  { fs with data := writeByte fs.data (b + k / BLOCK_SIZE) (k % BLOCK_SIZE) v }

/-- The byte `inodes[i].attribute`: the field of the typed table for a slot below
244, the byte 4098 of the slot in `data` from slot 244 on. -/
def attribute_at (fs : FS) (i : Nat) : Nat :=
  if i < LOW_INODES then (fs.inodes i).attrib else byteFrom fs 20 (i * INODE_BYTES + 4098)

/-- Assignment `inodes[i].attribute = a`: a store into the typed table for a slot
below 244, a store of the byte 4098 of the slot in `data` from slot 244 on. -/
def set_attribute_at (fs : FS) (i : Nat) (a : Nat) : FS :=
  if i < LOW_INODES then set_attribute fs i a else setByteFrom fs 20 (i * INODE_BYTES + 4098) a

/-- Assignment `inodes[i].in_use = 0` in `data`: both bytes of the `short` (4096 and
4097 of the slot) become 0. -/
def clear_in_use_bytes (fs : FS) (i : Nat) : FS :=
  setByteFrom (setByteFrom fs 20 (i * INODE_BYTES + 4096) 0) 20 (i * INODE_BYTES + 4097) 0

/-- Assignment `inodes[i].file_size = 0` in `data`: the four bytes of the `uint32_t`
(4100 .. 4103 of the slot) become 0. -/
def clear_file_size_bytes (fs : FS) (i : Nat) : FS :=
  setByteFrom
    (setByteFrom
      (setByteFrom (setByteFrom fs 20 (i * INODE_BYTES + 4100) 0) 20 (i * INODE_BYTES + 4101) 0)
      20 (i * INODE_BYTES + 4102) 0)
    20 (i * INODE_BYTES + 4103) 0

/-- The four stores that end `deletefs` (lines 266-269) for the inode
`inode_index`, in the order of the source: `free_inodes[inode_index] = 1`, then
`in_use`, `attribute` and `file_size` of the slot are set to 0.  For a slot below
244 these are the stores of `deletefs` into the typed table; from slot 244 on
they are stores into `data`. -/
def deletefs_reset (fs : FS) (inode_index : Nat) : FS :=
  let fs1 := set_free_inodes fs inode_index 1
  if inode_index < LOW_INODES then
    set_inode fs1 inode_index
      { fs1.inodes inode_index with in_use := 0, attrib := 0, file_size := 0 }
  else
    clear_file_size_bytes
      (setByteFrom (clear_in_use_bytes fs1 inode_index) 20 (inode_index * INODE_BYTES + 4098) 0)
      inode_index

/-- Function `attribfs` (lines 501-534) with the attribute of an inode accessed
where the program keeps it (`attribute_at`).  As in `attribfs`, only directory
index 0 is examined, and the two tests of the `else` branch read
`inodes[i].attribute` with `i` the directory index, 0. -/
def attribfs_data (fs : FS) (filename : List Nat) (attri set : Int) : Bool × FS :=
  let inode_index := ((fs.directory 0).inode).toNat
  if (fs.directory 0).in_use ≠ 0 ∧ strcmp_eq (fs.directory 0).filename filename = true then
    if set = 1 then
      let fs1 := if attri = 1
        then set_attribute_at fs inode_index (attribute_at fs inode_index ||| HIDDEN) else fs
      let fs2 := if attri = 2
        then set_attribute_at fs1 inode_index (attribute_at fs1 inode_index ||| READONLY)
        else fs1
      (true, fs2)
    else
      let fs1 := if attri = 1 ∧ attribute_at fs 0 &&& HIDDEN ≠ 0
        then set_attribute_at fs inode_index (attribute_at fs inode_index &&& (255 - HIDDEN))
        else fs
      let fs2 := if attri = 2 ∧ attribute_at fs1 0 &&& READONLY ≠ 0
        then set_attribute_at fs1 inode_index
          (attribute_at fs1 inode_index &&& (255 - READONLY))
        else fs1
      (true, fs2)
  else (false, fs)

/-- A fresh filesystem in which directory entry 0 carries the name `a` and is
linked to inode 244, as after `open` of an image that holds such an entry. -/
def stateSlot244 : FS :=
  set_directory createfs 0
    { filename := strncpy (List.replicate 64 0) nameA (strlen nameA), in_use := 1, inode := 244 }
/-! ## Basic facts about the scans -/

theorem firstIndex_eq_some_iff (p : Nat → Bool) (n s k : Nat) :
    firstIndex p n s = some k ↔
      s ≤ k ∧ k < s + n ∧ p k = true ∧ ∀ j, s ≤ j → j < k → p j = false := by
  induction n generalizing s with
  | zero => simp [firstIndex]; intro h1 h2; omega
  | succ n ih =>
    unfold firstIndex
    by_cases hp : p s = true
    · simp only [hp, if_true, Option.some.injEq]
      constructor
      · rintro rfl
        exact ⟨le_refl _, by omega, hp, fun j h1 h2 => by omega⟩
      · rintro ⟨h1, _, _, h4⟩
        by_contra hne
        have : s < k := by omega
        have := h4 s (le_refl _) this
        simp [hp] at this
    · have hf : p s = false := by simpa using hp
      simp only [hf, Bool.false_eq_true, if_false, ih]
      constructor
      · rintro ⟨h1, h2, h3, h4⟩
        refine ⟨by omega, by omega, h3, fun j hj1 hj2 => ?_⟩
        by_cases hjs : j = s
        · subst hjs; simpa using hp
        · exact h4 j (by omega) hj2
      · rintro ⟨h1, h2, h3, h4⟩
        have hks : k ≠ s := by rintro rfl; exact hp h3
        exact ⟨by omega, by omega, h3, fun j hj1 hj2 => h4 j (by omega) hj2⟩

theorem firstIndex_eq_none_iff (p : Nat → Bool) (n s : Nat) :
    firstIndex p n s = none ↔ ∀ j, s ≤ j → j < s + n → p j = false := by
  induction n generalizing s with
  | zero => simp [firstIndex]; intro j h1 h2; omega
  | succ n ih =>
    unfold firstIndex
    by_cases hp : p s = true
    · simp only [hp, if_true]
      constructor
      · intro h; cases h
      · intro h; have := h s (le_refl _) (by omega); simp [hp] at this
    · have hf : p s = false := by simpa using hp
      simp only [hf, Bool.false_eq_true, if_false, ih]
      constructor
      · intro h j hj1 hj2
        by_cases hjs : j = s
        · subst hjs; simpa using hp
        · exact h j (by omega) (by omega)
      · intro h j hj1 hj2
        exact h j (by omega) (by omega)

theorem firstIndex_zero_of (p : Nat → Bool) (n : Nat) (hp : p 0 = true) :
    firstIndex p (n + 1) 0 = some 0 := by
  simp [firstIndex, hp]

theorem count_all (p : Nat → Prop) [DecidablePred p] (n : Nat) (h : ∀ i, i < n → p i) :
    Nat.count p n = n := by
  induction n with
  | zero => simp
  | succ n ih =>
    rw [Nat.count_succ, ih (fun i hi => h i (by omega)), if_pos (h n (by omega))]

theorem count_congr (p q : Nat → Prop) [DecidablePred p] [DecidablePred q] (n : Nat)
    (h : ∀ i, i < n → (p i ↔ q i)) : Nat.count p n = Nat.count q n := by
  induction n with
  | zero => simp
  | succ n ih =>
    rw [Nat.count_succ, Nat.count_succ, ih (fun i hi => h i (by omega))]
    by_cases hp : p n
    · rw [if_pos hp, if_pos ((h n (by omega)).1 hp)]
    · rw [if_neg hp, if_neg (fun hq => hp ((h n (by omega)).2 hq))]

theorem count_ne (k n : Nat) : Nat.count (fun i => i ≠ k) n = if k < n then n - 1 else n := by
  induction n with
  | zero => simp
  | succ n ih =>
    rw [Nat.count_succ, ih]
    split_ifs <;> omega

theorem count_pos_of (p : Nat → Prop) [DecidablePred p] (n k : Nat) (hk : k < n) (hp : p k) :
    0 < Nat.count p n := by
  induction n with
  | zero => omega
  | succ n ih =>
    rw [Nat.count_succ]
    by_cases h : k = n
    · subst h; simp [hp]
    · have := ih (by omega); omega




/-! ## Basic facts about the state updates -/

@[simp] theorem set_directory_data (fs : FS) (i : Nat) (e : DirectoryEntry) :
    (set_directory fs i e).data = fs.data := rfl
@[simp] theorem set_directory_inodes (fs : FS) (i : Nat) (e : DirectoryEntry) :
    (set_directory fs i e).inodes = fs.inodes := rfl
@[simp] theorem set_directory_directory (fs : FS) (i : Nat) (e : DirectoryEntry) :
    (set_directory fs i e).directory = Function.update fs.directory i e := rfl
@[simp] theorem set_inode_data (fs : FS) (i : Nat) (n : Inode) :
    (set_inode fs i n).data = fs.data := rfl
@[simp] theorem set_inode_directory (fs : FS) (i : Nat) (n : Inode) :
    (set_inode fs i n).directory = fs.directory := rfl
@[simp] theorem set_inode_inodes (fs : FS) (i : Nat) (n : Inode) :
    (set_inode fs i n).inodes = Function.update fs.inodes i n := rfl

@[simp] theorem set_inode_block_data (fs : FS) (i : Nat) (k v : Int) :
    (set_inode_block fs i k v).data = fs.data := by
  unfold set_inode_block; split <;> rfl
@[simp] theorem set_inode_block_directory (fs : FS) (i : Nat) (k v : Int) :
    (set_inode_block fs i k v).directory = fs.directory := by
  unfold set_inode_block; split <;> rfl

theorem set_inode_block_fields (fs : FS) (i : Nat) (k v : Int) (j : Nat) :
    ((set_inode_block fs i k v).inodes j).in_use = (fs.inodes j).in_use ∧
    ((set_inode_block fs i k v).inodes j).attrib = (fs.inodes j).attrib ∧
    ((set_inode_block fs i k v).inodes j).file_size = (fs.inodes j).file_size := by
  unfold set_inode_block
  split
  · simp
  · by_cases h : j = i
    · subst h; simp
    · simp [Function.update_noteq h]

@[simp] theorem set_free_blocks_directory (fs : FS) (i : Int) (v : Nat) :
    (set_free_blocks fs i v).directory = fs.directory := by
  unfold set_free_blocks; split <;> rfl
@[simp] theorem set_free_blocks_inodes (fs : FS) (i : Int) (v : Nat) :
    (set_free_blocks fs i v).inodes = fs.inodes := by
  unfold set_free_blocks; split <;> rfl
@[simp] theorem set_free_inodes_directory (fs : FS) (i v : Nat) :
    (set_free_inodes fs i v).directory = fs.directory := rfl
@[simp] theorem set_free_inodes_inodes (fs : FS) (i v : Nat) :
    (set_free_inodes fs i v).inodes = fs.inodes := rfl

/-! ## Facts about `createfs` -/

theorem free_blocks_createfs (i : Nat) (h : i < NUM_BLOCKS) : free_blocks createfs i = 1 := by
  have h1 : i / 1024 < 64 := by
    simp only [NUM_BLOCKS] at h; omega
  have h2 : i % 1024 < 1024 := Nat.mod_lt _ (by norm_num)
  simp only [free_blocks, createfs, BLOCK_SIZE, NUM_BLOCKS, NUM_FILES]
  rw [if_pos]
  left
  refine ⟨by omega, by omega, h2⟩

theorem free_inodes_createfs (i : Nat) (h : i < NUM_FILES) : free_inodes createfs i = 1 := by
  simp only [NUM_FILES] at h
  simp only [free_inodes, createfs, BLOCK_SIZE, NUM_BLOCKS, NUM_FILES]
  rw [if_pos]
  right
  constructor <;> omega

theorem count_free_createfs :
    Nat.count (fun i => free_blocks createfs i ≠ 0) NUM_BLOCKS = NUM_BLOCKS := by
  apply count_all
  intro i hi
  rw [free_blocks_createfs i hi]
  exact Nat.one_ne_zero

theorem dffs_eq (fs : FS) :
    dffs fs = Nat.count (fun i => free_blocks fs i ≠ 0) NUM_BLOCKS * BLOCK_SIZE := rfl

theorem dffs_createfs_mul : dffs createfs = NUM_BLOCKS * BLOCK_SIZE := by
  rw [dffs_eq, count_free_createfs]

theorem blocks_mul : NUM_BLOCKS * BLOCK_SIZE = 67108864 := by
  norm_num [NUM_BLOCKS, BLOCK_SIZE]

theorem dffs_createfs : dffs createfs = 67108864 :=
  dffs_createfs_mul.trans blocks_mul

theorem findFreeBlock_of_first (fs : FS) (h : free_blocks fs 0 ≠ 0) :
    findFreeBlock fs = 1001 := by
  unfold findFreeBlock
  rw [show NUM_BLOCKS = 65535 + 1 from rfl, firstIndex_zero_of _ _ (by simpa using h)]
  rfl

theorem findFreeInode_of_first (fs : FS) (h : free_inodes fs 0 ≠ 0) :
    findFreeInode fs = 0 := by
  unfold findFreeInode
  rw [show NUM_FILES = 255 + 1 from rfl, firstIndex_zero_of _ _ (by simpa using h)]
  rfl

/-! ## Facts about the copy loop of `insertfs` -/

@[simp] theorem insertStep_data (content : List Nat) (ino offset : Nat) (b : Int) (fs : FS) :
    (insertStep content ino offset b fs).data
      = storeChunk fs.data b.toNat ((content.drop offset).take BLOCK_SIZE) := by
  simp [insertStep]

@[simp] theorem insertStep_directory (content : List Nat) (ino offset : Nat) (b : Int) (fs : FS) :
    (insertStep content ino offset b fs).directory = fs.directory := by
  simp [insertStep]

theorem insertStep_fields (content : List Nat) (ino offset : Nat) (b : Int) (fs : FS) (j : Nat) :
    ((insertStep content ino offset b fs).inodes j).in_use = (fs.inodes j).in_use ∧
    ((insertStep content ino offset b fs).inodes j).attrib = (fs.inodes j).attrib ∧
    ((insertStep content ino offset b fs).inodes j).file_size = (fs.inodes j).file_size := by
  unfold insertStep
  exact set_inode_block_fields _ _ _ _ _

theorem insertLoop_directory (content : List Nat) (ino : Nat) (n : Nat) :
    ∀ (copy_size : Int) (offset : Nat) (fs : FS), copy_size.toNat ≤ n →
      (insertLoop content ino copy_size offset fs).2.directory = fs.directory := by
  induction n using Nat.strong_induction_on with
  | _ n ih =>
    intro copy_size offset fs hn
    rw [insertLoop]
    by_cases hc : copy_size > 0
    · rw [dif_pos hc]
      by_cases hb : findFreeBlock fs = -1
      · simp [hb]
      · simp only [hb, if_false]
        rw [ih (copy_size - BLOCK_SIZE).toNat (by simp only [BLOCK_SIZE]; omega) _ _ _ (le_refl _)]
        exact insertStep_directory _ _ _ _ _
    · rw [dif_neg hc]

theorem insertLoop_fields (content : List Nat) (ino : Nat) (j : Nat) (n : Nat) :
    ∀ (copy_size : Int) (offset : Nat) (fs : FS), copy_size.toNat ≤ n →
      (((insertLoop content ino copy_size offset fs).2.inodes j).in_use = (fs.inodes j).in_use ∧
       ((insertLoop content ino copy_size offset fs).2.inodes j).attrib = (fs.inodes j).attrib ∧
       ((insertLoop content ino copy_size offset fs).2.inodes j).file_size
          = (fs.inodes j).file_size) := by
  induction n using Nat.strong_induction_on with
  | _ n ih =>
    intro copy_size offset fs hn
    rw [insertLoop]
    by_cases hc : copy_size > 0
    · rw [dif_pos hc]
      by_cases hb : findFreeBlock fs = -1
      · simp [hb]
      · simp only [hb, if_false]
        have h := ih (copy_size - BLOCK_SIZE).toNat (by simp only [BLOCK_SIZE]; omega)
          (copy_size - BLOCK_SIZE) (offset + BLOCK_SIZE)
          (insertStep content ino offset (findFreeBlock fs) fs) (le_refl _)
        have h2 := insertStep_fields content ino offset (findFreeBlock fs) fs j
        exact ⟨h.1.trans h2.1, h.2.1.trans h2.2.1, h.2.2.trans h2.2.2⟩
    · rw [dif_neg hc]
      exact ⟨rfl, rfl, rfl⟩

theorem insertLoop_inserted (content : List Nat) (ino : Nat) (n : Nat) :
    ∀ (copy_size : Int) (offset : Nat) (fs : FS), copy_size.toNat ≤ n →
      free_blocks fs 0 ≠ 0 →
      (insertLoop content ino copy_size offset fs).1 = InsertOutcome.inserted := by
  induction n using Nat.strong_induction_on with
  | _ n ih =>
    intro copy_size offset fs hn h0
    rw [insertLoop]
    by_cases hc : copy_size > 0
    · rw [dif_pos hc]
      have hb : findFreeBlock fs = 1001 := findFreeBlock_of_first fs h0
      simp only [hb]
      rw [if_neg (by decide)]
      apply ih (copy_size - BLOCK_SIZE).toNat (by simp only [BLOCK_SIZE]; omega) _ _ _ (le_refl _)
      simp only [free_blocks, insertStep_data, storeChunk] at h0 ⊢
      rw [if_neg (by intro h; simp at h)]
      exact h0
    · rw [dif_neg hc]

theorem cstr_append_zeros (s : List Nat) (k : Nat) :
    cstr (cstr s ++ List.replicate k 0) = cstr s := by
  unfold cstr
  have hp : ∀ a ∈ List.takeWhile (fun c : Nat => c != 0) s, (fun c : Nat => c != 0) a = true :=
    fun a ha => @List.mem_takeWhile_imp Nat (fun c : Nat => c != 0) s a ha
  rw [List.takeWhile_append_of_pos hp, List.takeWhile_replicate]
  simp

theorem cstr_strncpy_zeros (m : Nat) (src : List Nat) :
    cstr (strncpy (List.replicate m 0) src (strlen src)) = cstr src := by
  unfold strncpy strlen
  rw [List.take_left' rfl, List.drop_replicate]
  exact cstr_append_zeros src _

theorem firstIndex_dir_createfs :
    firstIndex (fun i => (createfs.directory i).in_use == 0) NUM_FILES 0 = some 0 := by
  rw [show NUM_FILES = 255 + 1 from rfl]
  exact firstIndex_zero_of _ _ rfl

theorem findFreeInode_createfs : findFreeInode createfs = 0 :=
  findFreeInode_of_first createfs (by rw [free_inodes_createfs 0 (by decide)]; exact Nat.one_ne_zero)

theorem insertfs_createfs_eq (host : Host) (filename content : List Nat)
    (hfile : host filename = some content) (hname : strlen filename ≤ MAX_NAME_SIZE)
    (hsize : content.length ≤ MAX_FILE_SIZE) :
    insertfs createfs host filename =
      insertLoop content 0 content.length 0 (freshStart filename content) := by
  unfold insertfs
  rw [hfile]
  simp only
  rw [if_neg (by omega), if_neg (by omega), dffs_createfs_mul,
    if_neg (by simp only [NUM_BLOCKS, BLOCK_SIZE, MAX_FILE_SIZE] at *; omega)]
  rw [firstIndex_dir_createfs]
  simp only [findFreeInode_createfs]
  rw [if_neg (by decide)]
  rfl

theorem free_blocks_freshStart (filename content : List Nat) (i : Nat) :
    free_blocks (freshStart filename content) i = free_blocks createfs i := rfl

theorem hostOf_self (name content : List Nat) : hostOf name content name = some content := by
  simp [hostOf]

/-! ## Facts about `deletefs` -/

theorem lookup_eq_some (fs : FS) (filename : List Nat) (i : Nat) (hi : i < NUM_FILES)
    (huse : (fs.directory i).in_use ≠ 0)
    (hname : strcmp_eq (fs.directory i).filename filename = true)
    (hfirst : ∀ j, j < i →
      ¬ ((fs.directory j).in_use ≠ 0 ∧ strcmp_eq (fs.directory j).filename filename = true)) :
    lookup fs filename = some i := by
  unfold lookup
  rw [firstIndex_eq_some_iff]
  refine ⟨Nat.zero_le _, by omega, by simp [huse, hname], ?_⟩
  intro j _ hj
  have h := hfirst j hj
  by_cases hu : (fs.directory j).in_use = 0
  · simp [hu]
  · have hn : strcmp_eq (fs.directory j).filename filename = false := by
      cases hs : strcmp_eq (fs.directory j).filename filename
      · rfl
      · exact absurd ⟨hu, hs⟩ h
    simp [hn]

theorem set_inode_block_natCast (fs : FS) (i n : Nat) (v : Int) :
    set_inode_block fs i (n : Int) v
      = set_inode fs i { fs.inodes i with blocks := Function.update (fs.inodes i).blocks n v } := by
  unfold set_inode_block
  rw [if_neg (by omega), Int.toNat_ofNat]

theorem deleteBlocks_directory (ino n : Nat) (fs : FS) :
    (deleteBlocks ino n fs).directory = fs.directory := by
  induction n with
  | zero => rfl
  | succ n ih =>
    simp only [deleteBlocks]
    split
    · rw [set_inode_block_directory, set_free_blocks_directory, ih]
    · exact ih

theorem deleteBlocks_inodes_other (ino n : Nat) (fs : FS) (j : Nat) (hj : j ≠ ino) :
    (deleteBlocks ino n fs).inodes j = fs.inodes j := by
  induction n with
  | zero => rfl
  | succ n ih =>
    simp only [deleteBlocks]
    split
    · rw [set_inode_block_natCast, set_inode_inodes, Function.update_noteq hj,
        set_free_blocks_inodes, ih]
    · exact ih

theorem deleteBlocks_fields (ino n : Nat) (fs : FS) :
    ((deleteBlocks ino n fs).inodes ino).in_use = (fs.inodes ino).in_use ∧
    ((deleteBlocks ino n fs).inodes ino).attrib = (fs.inodes ino).attrib ∧
    ((deleteBlocks ino n fs).inodes ino).file_size = (fs.inodes ino).file_size := by
  induction n with
  | zero => exact ⟨rfl, rfl, rfl⟩
  | succ n ih =>
    simp only [deleteBlocks]
    split
    · have h := set_inode_block_fields
        (set_free_blocks (deleteBlocks ino n fs)
          (((deleteBlocks ino n fs).inodes ino).blocks n - FIRST_DATA_BLOCK) 1) ino n (-1) ino
      rw [set_free_blocks_inodes] at h
      exact ⟨h.1.trans ih.1, h.2.1.trans ih.2.1, h.2.2.trans ih.2.2⟩
    · exact ih

theorem deleteBlocks_blocks (ino n : Nat) (fs : FS) (k : Nat) :
    ((deleteBlocks ino n fs).inodes ino).blocks k
      = if k < n then -1 else (fs.inodes ino).blocks k := by
  induction n with
  | zero => simp [deleteBlocks]
  | succ n ih =>
    simp only [deleteBlocks]
    split
    · rw [set_inode_block_natCast, set_inode_inodes, Function.update_same]
      simp only [set_free_blocks_inodes]
      by_cases hk : k = n
      · subst hk; simp
      · rw [Function.update_noteq hk, ih]
        by_cases h1 : k < n
        · rw [if_pos h1, if_pos (by omega)]
        · rw [if_neg h1, if_neg (by omega)]
    · rename_i hb
      rw [ih]
      by_cases hk : k = n
      · subst hk
        have h2 := ih
        rw [if_neg (lt_irrefl _)] at h2
        rw [if_neg (lt_irrefl _), if_pos (by omega)]
        rw [h2] at hb
        simpa using hb
      · by_cases h1 : k < n
        · rw [if_pos h1, if_pos (by omega)]
        · rw [if_neg h1, if_neg (by omega)]

theorem set_free_blocks_data (fs : FS) (i : Int) (hi : 0 ≤ i) (v b o : Nat) :
    (set_free_blocks fs i v).data b o
      = if b = 1000 + i.toNat / BLOCK_SIZE ∧ o = i.toNat % BLOCK_SIZE then v else fs.data b o := by
  unfold set_free_blocks
  rw [if_neg (by omega)]
  rfl

/-- Every byte of `data` is, after the loop, either what it was or 1. -/
theorem deleteBlocks_data_cases (ino n : Nat) (fs : FS) (b o : Nat) :
    (deleteBlocks ino n fs).data b o = fs.data b o ∨ (deleteBlocks ino n fs).data b o = 1 := by
  induction n with
  | zero => exact Or.inl rfl
  | succ n ih =>
    simp only [deleteBlocks]
    split
    · rw [set_inode_block_data]
      unfold set_free_blocks
      split
      · exact ih
      · simp only [writeByte]
        split
        · exact Or.inr rfl
        · exact ih
    · exact ih

/-- Bytes of `data` outside the blocks that hold the bitmap entries of index 0 and up
are not touched by the loop. -/
theorem deleteBlocks_data_low (ino n : Nat) (fs : FS) (b o : Nat) (hb : b < 1000) :
    (deleteBlocks ino n fs).data b o = fs.data b o := by
  induction n with
  | zero => rfl
  | succ n ih =>
    simp only [deleteBlocks]
    split
    · rw [set_inode_block_data]
      unfold set_free_blocks
      split
      · exact ih
      · simp only [writeByte]
        rw [if_neg (by intro h; simp only [BLOCK_SIZE] at h; omega)]
        exact ih
    · exact ih

theorem deleteBlocks_flag (ino n : Nat) (fs : FS) (k : Nat) (hk : k < n)
    (hne : (fs.inodes ino).blocks k ≠ -1)
    (hge : (FIRST_DATA_BLOCK : Int) ≤ (fs.inodes ino).blocks k) :
    free_blocks (deleteBlocks ino n fs) ((fs.inodes ino).blocks k - FIRST_DATA_BLOCK).toNat = 1 := by
  induction n with
  | zero => omega
  | succ n ih =>
    have hcur : ((deleteBlocks ino n fs).inodes ino).blocks n = (fs.inodes ino).blocks n := by
      rw [deleteBlocks_blocks, if_neg (lt_irrefl _)]
    simp only [deleteBlocks]
    by_cases hkn : k = n
    · subst hkn
      rw [hcur, if_pos hne]
      unfold free_blocks
      rw [set_inode_block_data, set_free_blocks_data _ _ (by omega), if_pos ⟨rfl, rfl⟩]
    · have hprev := ih (by omega)
      split
      · rename_i hb
        unfold free_blocks at hprev ⊢
        rw [set_inode_block_data]
        unfold set_free_blocks
        split
        · exact hprev
        · simp only [writeByte]
          split
          · rfl
          · exact hprev
      · exact hprev

theorem deletefs_eq (fs : FS) (filename : List Nat) (i : Nat)
    (h : lookup fs filename = some i) :
    deletefs fs filename =
      (true,
        set_inode
          (set_free_inodes
            (deleteBlocks (fs.directory i).inode.toNat BLOCKS_PER_FILE
              (set_directory fs i { filename := List.replicate 64 0, in_use := 0, inode := -1 }))
            (fs.directory i).inode.toNat 1)
          (fs.directory i).inode.toNat
          { (deleteBlocks (fs.directory i).inode.toNat BLOCKS_PER_FILE
              (set_directory fs i { filename := List.replicate 64 0, in_use := 0, inode := -1 })).inodes
              (fs.directory i).inode.toNat with in_use := 0, attrib := 0, file_size := 0 }) := by
  unfold deletefs
  simp only [h, set_free_inodes_inodes]

/-! ## One-block files on a fresh filesystem -/

theorem findFreeInodeBlock_of_first (fs : FS) (ino : Nat) (h : (fs.inodes ino).blocks 0 = -1) :
    findFreeInodeBlock fs ino = 0 := by
  unfold findFreeInodeBlock
  rw [show BLOCKS_PER_FILE = 1023 + 1 from rfl, firstIndex_zero_of _ _ (by simp [h])]
  rfl

theorem insertStep_freshStart (filename content : List Nat) (hlen : content.length ≤ BLOCK_SIZE) :
    insertStep content 0 0 1001 (freshStart filename content) =
      { data := storeChunk createfs.data 1001 content
        directory := Function.update createfs.directory 0 (freshEntry filename)
        inodes := Function.update createfs.inodes 0
          { blocks := Function.update (fun _ => -1) 0 1001
            in_use := 0
            attrib := 0
            file_size := content.length } } := by
  unfold insertStep
  have hchunk : (content.drop 0).take BLOCK_SIZE = content := by
    rw [List.drop_zero, List.take_of_length_le hlen]
  simp only [hchunk]
  rw [findFreeInodeBlock_of_first _ _ (by rfl)]
  unfold set_inode_block
  rw [if_neg (by decide)]
  simp only [set_inode, freshStart, set_directory, Function.update_same, Function.update_idem,
    Int.toNat_zero, emptyInode]
  rfl

theorem insertfs_createfs_small (name content : List Nat) (hname : strlen name ≤ MAX_NAME_SIZE)
    (hpos : 0 < content.length) (hlen : content.length ≤ BLOCK_SIZE) :
    insertfs createfs (hostOf name content) name
      = (InsertOutcome.inserted, stateOne name content) := by
  rw [insertfs_createfs_eq _ _ content (hostOf_self _ _) hname
    (by simp only [BLOCK_SIZE, MAX_FILE_SIZE] at *; omega)]
  rw [insertLoop, dif_pos (by omega)]
  have hb : findFreeBlock (freshStart name content) = 1001 :=
    findFreeBlock_of_first _ (by
      rw [free_blocks_freshStart, free_blocks_createfs 0 (by decide)]; exact Nat.one_ne_zero)
  simp only [hb]
  rw [if_neg (by decide), insertLoop, dif_neg (by simp only [BLOCK_SIZE] at *; omega),
    insertStep_freshStart _ _ hlen]
  rfl

/-! ## Facts about `retrievefs` -/

theorem retrievefs_eq (fs : FS) (host : Host) (filename content : List Nat) (i : Nat)
    (hfile : host filename = some content) (hl : lookup fs filename = some i)
    (hino : (fs.directory i).inode ≠ -1) :
    retrievefs fs host filename = some (retrieveLoop fs.data (toInt32 content.length) 0) := by
  unfold retrievefs
  simp only [hfile, hl]
  rw [if_neg hino]

theorem retrieveLoop_nonpos (data : Nat → Nat → Nat) (c : Int) (b : Nat) (h : c ≤ 0) :
    retrieveLoop data c b = [] := by
  rw [retrieveLoop, dif_neg (by omega)]

theorem retrieveLoop_one_block (data : Nat → Nat → Nat) (n b : Nat) (hpos : 0 < n)
    (hlen : n < BLOCK_SIZE) :
    retrieveLoop data (n : Int) b = (List.range n).map (data b) := by
  rw [retrieveLoop, dif_pos (by omega)]
  simp only
  rw [if_pos (by simp only [BLOCK_SIZE] at *; omega),
    retrieveLoop_nonpos _ _ _ (by simp only [BLOCK_SIZE] at *; omega), Int.toNat_ofNat,
    List.append_nil]

theorem toInt32_small (n : Nat) (h : n < 2 ^ 31) : toInt32 n = (n : Int) := by
  unfold toInt32
  have h1 : n % 4294967296 = n := Nat.mod_eq_of_lt (by omega)
  rw [h1, if_pos (by omega)]

theorem lookup_stateOne (content : List Nat) : lookup (stateOne nameA content) nameA = some 0 :=
  lookup_eq_some _ _ 0 (by decide)
    (by show (freshEntry nameA).in_use ≠ 0; decide)
    (by show strcmp_eq (freshEntry nameA).filename nameA = true; decide)
    (fun j hj => absurd hj (Nat.not_lt_zero j))

theorem lookup_eq_none (fs : FS) (filename : List Nat)
    (h : ∀ i, i < NUM_FILES → (fs.directory i).in_use = 0) : lookup fs filename = none := by
  unfold lookup
  rw [firstIndex_eq_none_iff]
  intro j _ hj
  simp [h j (by omega)]

theorem undelfs_not_found (fs : FS) (filename : List Nat) (h : lookup fs filename = none) :
    undelfs fs filename = (false, fs) := by
  unfold undelfs
  rw [h]

theorem deletefs_directory (fs : FS) (filename : List Nat) (i : Nat)
    (h : lookup fs filename = some i) :
    (deletefs fs filename).2.directory
      = Function.update fs.directory i { filename := List.replicate 64 0, in_use := 0, inode := -1 } := by
  rw [deletefs_eq fs filename i h]
  simp only [set_inode_directory, set_free_inodes_directory, deleteBlocks_directory,
    set_directory_directory]

theorem deletefs_found (fs : FS) (filename : List Nat) (i : Nat)
    (h : lookup fs filename = some i) : (deletefs fs filename).1 = true := by
  rw [deletefs_eq fs filename i h]

theorem dffs_congr (fs1 fs2 : FS)
    (h : ∀ i, i < NUM_BLOCKS → (free_blocks fs1 i ≠ 0 ↔ free_blocks fs2 i ≠ 0)) :
    dffs fs1 = dffs fs2 := by
  rw [dffs_eq, dffs_eq, count_congr _ _ _ h]

theorem dffs_of_data (fs1 fs2 : FS) (h : fs1.data = fs2.data) : dffs fs1 = dffs fs2 := by
  apply dffs_congr
  intro i _
  unfold free_blocks
  rw [h]

/-- A byte of `data` that is not the bitmap flag of a block in the block list is not
touched by the loop of `deletefs`. -/
theorem deleteBlocks_data_other (ino n : Nat) (fs : FS) (b o : Nat)
    (h : ∀ k, k < n → (fs.inodes ino).blocks k ≠ -1 →
      ¬ (b = 1000 + ((fs.inodes ino).blocks k - FIRST_DATA_BLOCK).toNat / BLOCK_SIZE ∧
         o = ((fs.inodes ino).blocks k - FIRST_DATA_BLOCK).toNat % BLOCK_SIZE)) :
    (deleteBlocks ino n fs).data b o = fs.data b o := by
  induction n with
  | zero => rfl
  | succ n ih =>
    have hprev := ih (fun k hk => h k (by omega))
    have hcur : ((deleteBlocks ino n fs).inodes ino).blocks n = (fs.inodes ino).blocks n := by
      rw [deleteBlocks_blocks, if_neg (lt_irrefl _)]
    simp only [deleteBlocks]
    split
    · rename_i hb
      rw [set_inode_block_data]
      unfold set_free_blocks
      split
      · exact hprev
      · simp only [writeByte]
        rw [hcur] at hb ⊢
        rw [if_neg (h n (by omega) hb)]
        exact hprev
    · exact hprev

theorem deletefs_data (fs : FS) (filename : List Nat) (i : Nat)
    (h : lookup fs filename = some i) :
    (deletefs fs filename).2.data
      = writeByte
          (deleteBlocks (fs.directory i).inode.toNat BLOCKS_PER_FILE
            (set_directory fs i { filename := List.replicate 64 0, in_use := 0, inode := -1 })).data
          (19 + (fs.directory i).inode.toNat / BLOCK_SIZE)
          ((fs.directory i).inode.toNat % BLOCK_SIZE) 1 := by
  rw [deletefs_eq fs filename i h]
  rfl

theorem stateOne_data_createfs (name : List Nat) : (stateOne name [1]).data = createfs.data := by
  funext b o
  show storeChunk createfs.data 1001 [1] b o = createfs.data b o
  unfold storeChunk
  split
  · rename_i h
    obtain ⟨rfl, ho⟩ := h
    have ho0 : o = 0 := by simpa using ho
    subst ho0
    decide
  · rfl

theorem stateOne_blocks (name content : List Nat) (k : Nat) :
    ((stateOne name content).inodes 0).blocks k = if k = 0 then 1001 else -1 := by
  simp only [stateOne, Function.update_same]
  by_cases hk : k = 0
  · subst hk; simp
  · simp [Function.update_noteq hk, hk]

/-- The free-block flags after `insert a; delete a` on a fresh filesystem, for the
one-byte file `a` holding the byte 0: every flag is set except flag 1024, which is
byte 0 of block 1001 and holds the byte of the file. -/
theorem free_blocks_after_delete_zero (i : Nat) (hi : i < NUM_BLOCKS) :
    free_blocks (deletefs (stateOne nameA [0]) nameA).2 i ≠ 0 ↔ i ≠ 1024 := by
  unfold free_blocks
  rw [deletefs_data _ _ 0 (lookup_stateOne _)]
  have hino : ((stateOne nameA [0]).directory 0).inode.toNat = 0 := rfl
  rw [hino]
  simp only [writeByte]
  rw [if_neg (by intro h; simp only [BLOCK_SIZE] at h; omega)]
  by_cases h : i = 1024
  · subst h
    rw [deleteBlocks_data_other]
    · simp only [set_directory_data]
      constructor
      · intro h0; exact absurd (by decide) h0
      · intro h0; exact absurd rfl h0
    · intro k _ hne
      simp only [set_directory_inodes] at hne ⊢
      rw [stateOne_blocks] at hne ⊢
      by_cases hk : k = 0
      · subst hk
        simp
      · simp [hk] at hne
  · constructor
    · intro _; exact h
    · intro _
      have horig : (stateOne nameA [0]).data (1000 + i / BLOCK_SIZE) (i % BLOCK_SIZE) = 1 := by
        show storeChunk createfs.data 1001 [0] (1000 + i / BLOCK_SIZE) (i % BLOCK_SIZE) = 1
        unfold storeChunk
        rw [if_neg (by
          intro hh
          simp only [BLOCK_SIZE, NUM_BLOCKS, List.length_singleton] at hh hi
          omega)]
        exact free_blocks_createfs i hi
      rcases deleteBlocks_data_cases 0 BLOCKS_PER_FILE
        (set_directory (stateOne nameA [0]) 0
          { filename := List.replicate 64 0, in_use := 0, inode := -1 })
        (1000 + i / BLOCK_SIZE) (i % BLOCK_SIZE) with h1 | h1
      · rw [h1, set_directory_data, horig]; exact Nat.one_ne_zero
      · rw [h1]; exact Nat.one_ne_zero

/-! ## `insertfs` on an arbitrary state -/

theorem insertfs_eq_loop (fs : FS) (host : Host) (filename content : List Nat) (d ino : Nat)
    (hfile : host filename = some content) (hname : strlen filename ≤ MAX_NAME_SIZE)
    (hsize : content.length ≤ MAX_FILE_SIZE) (hspace : content.length ≤ dffs fs)
    (hdir : firstIndex (fun i => (fs.directory i).in_use == 0) NUM_FILES 0 = some d)
    (hino : findFreeInode fs = (ino : Int)) :
    insertfs fs host filename =
      insertLoop content ino content.length 0
        (set_inode
          (set_directory fs d
            { filename := strncpy (fs.directory d).filename filename (strlen filename)
              in_use := 1
              inode := (ino : Int) })
          ino { fs.inodes ino with file_size := content.length }) := by
  unfold insertfs
  rw [hfile]
  simp only
  rw [if_neg (by omega), if_neg (by omega), if_neg (by omega), hdir]
  simp only [hino]
  rw [if_neg (by omega), Int.toNat_ofNat]
  rfl

theorem dffs_ge_of_flag (fs : FS) (k : Nat) (hk : k < NUM_BLOCKS) (h : free_blocks fs k ≠ 0) :
    BLOCK_SIZE ≤ dffs fs := by
  rw [dffs_eq]
  have := count_pos_of (fun i => free_blocks fs i ≠ 0) NUM_BLOCKS k hk h
  exact Nat.le_mul_of_pos_left _ this

theorem insertfs_second :
    insertfs (stateOne nameA [98]) (hostOf nameB [99]) nameB =
      insertLoop [99] 0 1 0
        (set_inode
          (set_directory (stateOne nameA [98]) 1
            { filename := strncpy (List.replicate 64 0) nameB (strlen nameB)
              in_use := 1
              inode := 0 })
          0 { (stateOne nameA [98]).inodes 0 with file_size := 1 }) := by
  have hspace : ([99] : List Nat).length ≤ dffs (stateOne nameA [98]) := by
    have := dffs_ge_of_flag (stateOne nameA [98]) 0 (by decide) (by decide)
    simp only [BLOCK_SIZE, List.length_singleton] at *
    omega
  have hdir : firstIndex (fun i => ((stateOne nameA [98]).directory i).in_use == 0) NUM_FILES 0
      = some 1 := by
    rw [firstIndex_eq_some_iff]
    refine ⟨by decide, by decide, by decide, ?_⟩
    intro j _ hj
    have : j = 0 := by omega
    subst this
    decide
  have hino : findFreeInode (stateOne nameA [98]) = ((0 : Nat) : Int) :=
    findFreeInode_of_first _ (by decide)
  rw [insertfs_eq_loop _ _ nameB [99] 1 0 (hostOf_self _ _) (by decide) (by decide) hspace hdir hino]
  rfl

theorem findFreeInodeBlock_second (fs : FS) (ino : Nat) (h0 : (fs.inodes ino).blocks 0 ≠ -1)
    (h1 : (fs.inodes ino).blocks 1 = -1) : findFreeInodeBlock fs ino = 1 := by
  unfold findFreeInodeBlock
  have h : firstIndex (fun i => (fs.inodes ino).blocks i == -1) BLOCKS_PER_FILE 0 = some 1 := by
    rw [firstIndex_eq_some_iff]
    refine ⟨by decide, by decide, by simp [h1], ?_⟩
    intro j _ hj
    have : j = 0 := by omega
    subst this
    simpa using h0
  rw [h]
  rfl

theorem insertfs_second_eq :
    insertfs (stateOne nameA [98]) (hostOf nameB [99]) nameB
      = (InsertOutcome.inserted, stateAB) := by
  rw [insertfs_second, insertLoop, dif_pos (by decide)]
  simp only
  rw [findFreeBlock_of_first _ (by decide), if_neg (by decide), insertLoop,
    dif_neg (by decide)]
  unfold insertStep
  simp only
  rw [findFreeInodeBlock_second _ _ (by decide) (by decide)]
  unfold set_inode_block
  rw [if_neg (by decide)]
  simp only [set_inode, set_directory, stateOne, stateAB, Function.update_same,
    Function.update_idem, freshEntry]
  rfl

/-! ## Facts about `attribfs` and `listfs` -/

theorem attribfs_skips (fs : FS) (filename : List Nat) (attri set : Int)
    (h : ¬ ((fs.directory 0).in_use ≠ 0 ∧ strcmp_eq (fs.directory 0).filename filename = true)) :
    attribfs fs filename attri set = (false, fs) := by
  unfold attribfs attribBody
  simp only
  rw [if_neg h]

theorem set_attribute_directory (fs : FS) (i a : Nat) :
    (set_attribute fs i a).directory = fs.directory := rfl

theorem attribfs_directory (fs : FS) (filename : List Nat) (attri set : Int) :
    (attribfs fs filename attri set).2.directory = fs.directory := by
  unfold attribfs attribBody
  simp only
  split
  · split
    · split <;> split <;> rfl
    · split <;> split <;> rfl
  · rfl

theorem listLines_show_hidden (fs : FS) (n : Nat) : listLines fs 1 0 n = [] := by
  induction n with
  | zero => rfl
  | succ n ih =>
    rw [listLines, ih]
    simp [listEntry]

theorem listLines_eq_first (fs : FS) (sh sa : Int) (n : Nat)
    (h : ∀ i, 1 ≤ i → i < n + 1 → listEntry fs sh sa i = []) :
    listLines fs sh sa (n + 1) = listEntry fs sh sa 0 := by
  induction n with
  | zero => simp [listLines]
  | succ n ih =>
    rw [listLines, ih (fun i h1 h2 => h i h1 (by omega)), h (n + 1) (by omega) (by omega),
      List.append_nil]

theorem listEntry_subset (fs : FS) (sh sa : Int) (i n : Nat) (hi : i < n) :
    ∀ l, l ∈ listEntry fs sh sa i → l ∈ listLines fs sh sa n := by
  induction n with
  | zero => omega
  | succ n ih =>
    intro l hl
    rw [listLines, List.mem_append]
    by_cases h : i = n
    · subst h; exact Or.inr hl
    · exact Or.inl (ih (by omega) l hl)

theorem listLines_length_createfs (n : Nat) : (listLines createfs 0 1 n).length = n := by
  induction n with
  | zero => rfl
  | succ n ih =>
    rw [listLines, List.length_append, ih]
    rfl

/-- Every line printed by the first `n` iterations carries an index below `n`. -/
theorem listLines_index_lt (fs : FS) (sh sa : Int) (n : Nat) :
    ∀ l, l ∈ listLines fs sh sa n → l.index < n := by
  induction n with
  | zero => intro l hl; simp [listLines] at hl
  | succ n ih =>
    intro l hl
    rw [listLines, List.mem_append] at hl
    rcases hl with hl | hl
    · exact Nat.lt_succ_of_lt (ih l hl)
    · unfold listEntry at hl
      rw [List.mem_append] at hl
      rcases hl with hl | hl
      · split at hl
        · rw [List.mem_singleton] at hl; rw [hl]; exact Nat.lt_succ_self n
        · simp at hl
      · split at hl
        · rw [List.mem_singleton] at hl; rw [hl]; exact Nat.lt_succ_self n
        · simp at hl

/-- The lines of `listfs` come in non-decreasing order of directory index. -/
theorem listLines_sorted (fs : FS) (sh sa : Int) (n : Nat) :
    (listLines fs sh sa n).Pairwise (fun a b => a.index ≤ b.index) := by
  induction n with
  | zero => exact List.Pairwise.nil
  | succ n ih =>
    rw [listLines, List.pairwise_append]
    refine ⟨ih, ?_, ?_⟩
    · unfold listEntry
      split <;> split <;> simp
    · intro a ha b hb
      have h1 := listLines_index_lt fs sh sa n a ha
      have h2 : b.index = n := by
        unfold listEntry at hb
        rw [List.mem_append] at hb
        rcases hb with hb | hb
        · split at hb
          · rw [List.mem_singleton] at hb; rw [hb]
          · simp at hb
        · split at hb
          · rw [List.mem_singleton] at hb; rw [hb]
          · simp at hb
      omega

theorem strcmp_eq_freshEntry (name : List Nat) :
    strcmp_eq (freshEntry name).filename name = true := by
  unfold strcmp_eq
  show (cstr (strncpy (List.replicate 64 0) name (strlen name)) == cstr name) = true
  rw [cstr_strncpy_zeros]
  exact beq_self_eq_true _

theorem attribfs_stateOne (name : List Nat) :
    attribfs (stateOne name [98]) name 1 1 = (true, stateHidden name) := by
  have huse : ((stateOne name [98]).directory 0).in_use ≠ 0 := by
    show (1 : Int) ≠ 0
    decide
  have hn : strcmp_eq ((stateOne name [98]).directory 0).filename name = true :=
    strcmp_eq_freshEntry name
  have h12 : ¬ ((1 : Int) = 2) := by decide
  unfold attribfs attribBody
  simp only [huse, hn, h12, ne_eq, not_false_eq_true, and_self, if_true, if_false]
  have hidx : ((stateOne name [98]).directory 0).inode.toNat = 0 := rfl
  rw [hidx]
  have hattr : ((stateOne name [98]).inodes 0).attrib = 0 := rfl
  rw [hattr]
  rfl

/-! ## The copy loop of `insertfs` while `free_blocks[0]` is set -/

theorem insertStep_inodes_other (content : List Nat) (ino offset : Nat) (b : Int) (fs : FS)
    (j : Nat) (hj : j ≠ ino) :
    (insertStep content ino offset b fs).inodes j = fs.inodes j := by
  unfold insertStep set_inode_block
  simp only
  split
  · rfl
  · rw [set_inode_inodes, Function.update_noteq hj]

theorem insertLoop_inodes_other (content : List Nat) (ino : Nat) (j : Nat) (hj : j ≠ ino)
    (n : Nat) :
    ∀ (copy_size : Int) (offset : Nat) (fs : FS), copy_size.toNat ≤ n →
      (insertLoop content ino copy_size offset fs).2.inodes j = fs.inodes j := by
  induction n using Nat.strong_induction_on with
  | _ n ih =>
    intro copy_size offset fs hn
    rw [insertLoop]
    by_cases hc : copy_size > 0
    · rw [dif_pos hc]
      by_cases hb : findFreeBlock fs = -1
      · simp [hb]
      · simp only [hb, if_false]
        rw [ih (copy_size - BLOCK_SIZE).toNat (by simp only [BLOCK_SIZE]; omega) _ _ _ (le_refl _)]
        exact insertStep_inodes_other _ _ _ _ _ _ hj
    · rw [dif_neg hc]

theorem free_blocks_zero_eq (fs : FS) : free_blocks fs 0 = fs.data 1000 0 := rfl

theorem free_blocks_insertStep_zero (content : List Nat) (ino offset : Nat) (fs : FS) :
    free_blocks (insertStep content ino offset 1001 fs) 0 = free_blocks fs 0 := by
  rw [free_blocks_zero_eq, free_blocks_zero_eq, insertStep_data]
  unfold storeChunk
  rw [if_neg (by intro h; simp at h)]

theorem findFreeInodeBlock_congr (fs1 fs2 : FS) (ino : Nat) (h : fs1.inodes = fs2.inodes) :
    findFreeInodeBlock fs1 ino = findFreeInodeBlock fs2 ino := by
  unfold findFreeInodeBlock
  rw [h]

theorem insertLoop_data_other (content : List Nat) (ino : Nat) (b o : Nat) (hb : b ≠ 1001)
    (n : Nat) :
    ∀ (copy_size : Int) (offset : Nat) (fs : FS), copy_size.toNat ≤ n →
      free_blocks fs 0 ≠ 0 →
      (insertLoop content ino copy_size offset fs).2.data b o = fs.data b o := by
  induction n using Nat.strong_induction_on with
  | _ n ih =>
    intro copy_size offset fs hn h0
    rw [insertLoop]
    by_cases hc : copy_size > 0
    · rw [dif_pos hc]
      have hfb : findFreeBlock fs = 1001 := findFreeBlock_of_first fs h0
      simp only [hfb]
      rw [if_neg (by decide)]
      have hstep : (insertStep content ino offset 1001 fs).data b o = fs.data b o := by
        rw [insertStep_data]
        unfold storeChunk
        rw [if_neg (by intro h; exact hb h.1)]
      rw [ih (copy_size - BLOCK_SIZE).toNat (by simp only [BLOCK_SIZE]; omega) _ _ _ (le_refl _)]
      · exact hstep
      · rw [free_blocks_insertStep_zero]
        exact h0
    · rw [dif_neg hc]

theorem findFreeInodeBlock_filled (fs : FS) (ino m : Nat) (hm : m < BLOCKS_PER_FILE)
    (h : ∀ k, (fs.inodes ino).blocks k = if k < m then 1001 else -1) :
    findFreeInodeBlock fs ino = (m : Int) := by
  unfold findFreeInodeBlock
  have hf : firstIndex (fun i => (fs.inodes ino).blocks i == -1) BLOCKS_PER_FILE 0 = some m := by
    rw [firstIndex_eq_some_iff]
    refine ⟨Nat.zero_le _, by omega, ?_, ?_⟩
    · rw [h m, if_neg (lt_irrefl _)]
      rfl
    · intro j _ hj
      rw [h j, if_pos hj]
      rfl
  rw [hf]

theorem insertStep_blocks (content : List Nat) (ino offset m : Nat) (fs : FS)
    (hm : m < BLOCKS_PER_FILE)
    (h : ∀ k, (fs.inodes ino).blocks k = if k < m then 1001 else -1) :
    ∀ k, ((insertStep content ino offset 1001 fs).inodes ino).blocks k
      = if k < m + 1 then 1001 else -1 := by
  intro k
  unfold insertStep
  simp only
  have hfi : findFreeInodeBlock
      (FS.mk (storeChunk fs.data (Int.toNat 1001) (List.take BLOCK_SIZE (List.drop offset content)))
        fs.directory fs.inodes) ino = (m : Int) :=
    findFreeInodeBlock_filled _ ino m hm h
  rw [hfi, set_inode_block_natCast, set_inode_inodes, Function.update_same]
  simp only
  by_cases hk : k = m
  · subst hk
    rw [Function.update_same, if_pos (Nat.lt_succ_self _)]
  · rw [Function.update_noteq hk, h k]
    by_cases h1 : k < m
    · rw [if_pos h1, if_pos (by omega)]
    · rw [if_neg h1, if_neg (by omega)]

/-- The block list after the copy loop: with `m` entries filled before, `r` passes
to go and `free_blocks[0]` set, every pass records block 1001 in the next entry. -/
theorem insertLoop_blocks (content : List Nat) (ino : Nat) (r : Nat) :
    ∀ (m : Nat) (copy_size : Int) (offset : Nat) (fs : FS),
      1024 * (r : Int) - 1024 < copy_size → copy_size ≤ 1024 * (r : Int) →
      m + r ≤ BLOCKS_PER_FILE → free_blocks fs 0 ≠ 0 →
      (∀ k, (fs.inodes ino).blocks k = if k < m then 1001 else -1) →
      ∀ k, ((insertLoop content ino copy_size offset fs).2.inodes ino).blocks k
        = if k < m + r then 1001 else -1 := by
  induction r with
  | zero =>
    intro m copy_size offset fs h1 h2 _ _ hblk k
    rw [insertLoop, dif_neg (by omega)]
    exact hblk k
  | succ r ih =>
    intro m copy_size offset fs h1 h2 hmr h0 hblk k
    rw [insertLoop, dif_pos (by push_cast at h1; omega)]
    have hfb : findFreeBlock fs = 1001 := findFreeBlock_of_first fs h0
    simp only [hfb]
    rw [if_neg (by decide)]
    have h0' : free_blocks (insertStep content ino offset 1001 fs) 0 ≠ 0 := by
      rw [free_blocks_insertStep_zero]
      exact h0
    rw [ih (m + 1) (copy_size - BLOCK_SIZE) (offset + BLOCK_SIZE)
      (insertStep content ino offset 1001 fs)
      (by simp only [BLOCK_SIZE]; push_cast at h1 ⊢; omega)
      (by simp only [BLOCK_SIZE]; push_cast at h2 ⊢; omega)
      (by omega) h0'
      (insertStep_blocks content ino offset m fs (by omega) hblk) k]
    by_cases hk : k < m + (r + 1)
    · rw [if_pos hk, if_pos (by omega)]
    · rw [if_neg hk, if_neg (by omega)]

theorem dffs_ge_max (fs : FS) (h : ∀ i, i < 1024 → free_blocks fs i ≠ 0) :
    MAX_FILE_SIZE ≤ dffs fs := by
  rw [dffs_eq]
  have h1 : Nat.count (fun i => free_blocks fs i ≠ 0) 1024 = 1024 := by
    apply count_all
    exact h
  have h2 : Nat.count (fun i => free_blocks fs i ≠ 0) 1024
      ≤ Nat.count (fun i => free_blocks fs i ≠ 0) NUM_BLOCKS :=
    Nat.count_monotone _ (by decide)
  rw [h1] at h2
  calc MAX_FILE_SIZE = 1024 * BLOCK_SIZE := by decide
    _ ≤ _ := Nat.mul_le_mul_right _ h2

/-! ## `insertfs` into a state whose slot 0 is free -/

theorem slotZeroFree_createfs : SlotZeroFree createfs :=
  ⟨rfl, fun _ => rfl, by rw [free_inodes_createfs 0 (by decide)]; exact Nat.one_ne_zero,
    fun i hi => by
      rw [free_blocks_createfs i (by simp only [NUM_BLOCKS]; omega)]; exact Nat.one_ne_zero⟩

theorem insertfs_slotZero_eq (fs : FS) (host : Host) (filename content : List Nat)
    (hfs : SlotZeroFree fs) (hfile : host filename = some content)
    (hname : strlen filename ≤ MAX_NAME_SIZE) (hsize : content.length ≤ MAX_FILE_SIZE) :
    insertfs fs host filename =
      insertLoop content 0 content.length 0
        (set_inode (set_directory fs 0 (freshEntry filename)) 0
          { fs.inodes 0 with file_size := content.length }) := by
  obtain ⟨hdir, _, hino, hflags⟩ := hfs
  have hd : firstIndex (fun i => (fs.directory i).in_use == 0) NUM_FILES 0 = some 0 := by
    rw [show NUM_FILES = 255 + 1 from rfl]
    apply firstIndex_zero_of
    simp only [hdir]
    rfl
  rw [insertfs_eq_loop fs host filename content 0 0 hfile hname hsize
    (le_trans hsize (dffs_ge_max fs hflags)) hd (findFreeInode_of_first fs hino), hdir]
  rfl

/-- What `insertfs` does to a state whose slot 0 is free, for a host file that
passes the name and size checks. -/
theorem insertfs_slotZero (fs : FS) (host : Host) (filename content : List Nat)
    (hfs : SlotZeroFree fs) (hfile : host filename = some content)
    (hname : strlen filename ≤ MAX_NAME_SIZE) (hsize : content.length ≤ MAX_FILE_SIZE) :
    (insertfs fs host filename).1 = InsertOutcome.inserted ∧
    (insertfs fs host filename).2.directory = Function.update fs.directory 0 (freshEntry filename) ∧
    (∀ k, ((insertfs fs host filename).2.inodes 0).blocks k
      = if k < blocksFor content.length then 1001 else -1) ∧
    ((insertfs fs host filename).2.inodes 0).file_size = content.length ∧
    ((insertfs fs host filename).2.inodes 0).in_use = (fs.inodes 0).in_use ∧
    ((insertfs fs host filename).2.inodes 0).attrib = (fs.inodes 0).attrib ∧
    (∀ j, j ≠ 0 → (insertfs fs host filename).2.inodes j = fs.inodes j) ∧
    (∀ b o, b ≠ 1001 → (insertfs fs host filename).2.data b o = fs.data b o) := by
  rw [insertfs_slotZero_eq fs host filename content hfs hfile hname hsize]
  obtain ⟨_, hblk, _, hflags⟩ := hfs
  have h0 : free_blocks (set_inode (set_directory fs 0 (freshEntry filename)) 0
      { fs.inodes 0 with file_size := content.length }) 0 ≠ 0 := hflags 0 (by decide)
  have hfields := insertLoop_fields content 0 0 _ (content.length : Int) 0
    (set_inode (set_directory fs 0 (freshEntry filename)) 0
      { fs.inodes 0 with file_size := content.length }) (le_refl _)
  simp only [set_inode_inodes, Function.update_same] at hfields
  refine ⟨insertLoop_inserted _ _ _ _ _ _ (le_refl _) h0, ?_, ?_, hfields.2.2, hfields.1,
    hfields.2.1, ?_, ?_⟩
  · rw [insertLoop_directory _ _ _ _ _ _ (le_refl _)]
    rfl
  · intro k
    have h := insertLoop_blocks content 0 (blocksFor content.length) 0 (content.length : Int) 0
      (set_inode (set_directory fs 0 (freshEntry filename)) 0
        { fs.inodes 0 with file_size := content.length })
      (by unfold blocksFor; simp only [BLOCK_SIZE]; omega)
      (by unfold blocksFor; simp only [BLOCK_SIZE]; omega)
      (by unfold blocksFor; simp only [BLOCK_SIZE, BLOCKS_PER_FILE, MAX_FILE_SIZE] at *; omega)
      h0
      (fun k => by
        simp only [set_inode_inodes, Function.update_same]
        rw [if_neg (Nat.not_lt_zero k)]
        exact hblk k) k
    rw [h, Nat.zero_add]
  · intro j hj
    rw [insertLoop_inodes_other _ _ j hj _ _ _ _ (le_refl _), set_inode_inodes,
      Function.update_noteq hj]
    rfl
  · intro b o hb
    rw [insertLoop_data_other _ _ b o hb _ _ _ _ (le_refl _) h0]
    rfl

/-! ## Failing calls -/

theorem insertLoop_outcome (content : List Nat) (ino : Nat) (n : Nat) :
    ∀ (copy_size : Int) (offset : Nat) (fs : FS), copy_size.toNat ≤ n →
      (insertLoop content ino copy_size offset fs).1 = InsertOutcome.inserted ∨
      (insertLoop content ino copy_size offset fs).1 = InsertOutcome.no_block := by
  induction n using Nat.strong_induction_on with
  | _ n ih =>
    intro copy_size offset fs hn
    rw [insertLoop]
    by_cases hc : copy_size > 0
    · rw [dif_pos hc]
      by_cases hb : findFreeBlock fs = -1
      · simp [hb]
      · simp only [hb, if_false]
        exact ih (copy_size - BLOCK_SIZE).toNat (by simp only [BLOCK_SIZE]; omega) _ _ _ (le_refl _)
    · rw [dif_neg hc]
      exact Or.inl rfl

theorem insertfs_rejected (fs : FS) (host : Host) (filename content : List Nat)
    (hfile : host filename = some content)
    (h : strlen filename > MAX_NAME_SIZE ∨ content.length > MAX_FILE_SIZE ∨
      content.length > dffs fs ∨
      firstIndex (fun i => (fs.directory i).in_use == 0) NUM_FILES 0 = none ∨
      findFreeInode fs = -1) :
    (insertfs fs host filename).1 ≠ InsertOutcome.inserted ∧
    (insertfs fs host filename).1 ≠ InsertOutcome.no_block ∧
    (insertfs fs host filename).2 = fs := by
  unfold insertfs
  rw [hfile]
  simp only
  by_cases h1 : strlen filename > MAX_NAME_SIZE
  · rw [if_pos h1]; exact ⟨by simp, by simp, rfl⟩
  rw [if_neg h1]
  by_cases h2 : content.length > MAX_FILE_SIZE
  · rw [if_pos h2]; exact ⟨by simp, by simp, rfl⟩
  rw [if_neg h2]
  by_cases h3 : content.length > dffs fs
  · rw [if_pos h3]; exact ⟨by simp, by simp, rfl⟩
  rw [if_neg h3]
  cases h4 : firstIndex (fun i => (fs.directory i).in_use == 0) NUM_FILES 0 with
  | none => simp
  | some d =>
    simp only
    have h5 : findFreeInode fs = -1 := by
      rcases h with h | h | h | h | h
      · exact absurd h h1
      · exact absurd h h2
      · exact absurd h h3
      · rw [h4] at h; cases h
      · exact h
    rw [if_pos h5]
    exact ⟨by simp, by simp, rfl⟩

theorem deletefs_not_found (fs : FS) (filename : List Nat) (h : lookup fs filename = none) :
    deletefs fs filename = (false, fs) := by
  unfold deletefs
  rw [h]

theorem attribfs_not_found (fs : FS) (filename : List Nat) (attri set : Int)
    (h : lookup fs filename = none) : attribfs fs filename attri set = (false, fs) := by
  apply attribfs_skips
  intro hc
  unfold lookup at h
  rw [firstIndex_eq_none_iff] at h
  have h0 := h 0 (le_refl _) (by decide)
  simp [hc.1, hc.2] at h0

/-! ## The frame of `attribfs` -/

theorem set_attribute_inodes (fs : FS) (i a : Nat) (j : Nat) :
    ((set_attribute fs i a).inodes j).blocks = (fs.inodes j).blocks ∧
    ((set_attribute fs i a).inodes j).in_use = (fs.inodes j).in_use ∧
    ((set_attribute fs i a).inodes j).file_size = (fs.inodes j).file_size ∧
    ((set_attribute fs i a).inodes j).attrib = if j = i then a else (fs.inodes j).attrib := by
  unfold set_attribute
  by_cases h : j = i
  · subst h; simp
  · simp [Function.update_noteq h, h]

theorem testBit_lor_bit (a k j : Nat) (hk : k ≠ j) :
    (a ||| 2 ^ j).testBit k = a.testBit k := by
  rw [Nat.testBit_or, Nat.testBit_two_pow]
  have : decide (j = k) = false := by
    rw [decide_eq_false_iff_not]
    exact fun h => hk h.symm
  rw [this, Bool.or_false]

theorem testBit_land_254 (a k : Nat) (hk : k ≠ 0) (h8 : k < 8) :
    (a &&& (255 - HIDDEN)).testBit k = a.testBit k := by
  rw [Nat.testBit_and]
  have : (255 - HIDDEN).testBit k = true := by
    interval_cases k
    · exact absurd rfl hk
    all_goals decide
  rw [this, Bool.and_true]

theorem testBit_land_253 (a k : Nat) (hk : k ≠ 1) (h8 : k < 8) :
    (a &&& (255 - READONLY)).testBit k = a.testBit k := by
  rw [Nat.testBit_and]
  have : (255 - READONLY).testBit k = true := by
    interval_cases k
    · decide
    · exact absurd rfl hk
    all_goals decide
  rw [this, Bool.and_true]

theorem set_attribute_frame (fs : FS) (i a : Nat) (bit : Nat)
    (hbits : ∀ k, k < 8 → k ≠ bit → a.testBit k = (fs.inodes i).attrib.testBit k) :
    (set_attribute fs i a).directory = fs.directory ∧
    (set_attribute fs i a).data = fs.data ∧
    (∀ j, ((set_attribute fs i a).inodes j).blocks = (fs.inodes j).blocks ∧
      ((set_attribute fs i a).inodes j).in_use = (fs.inodes j).in_use ∧
      ((set_attribute fs i a).inodes j).file_size = (fs.inodes j).file_size) ∧
    (∀ j k, k < 8 → k ≠ bit →
      ((set_attribute fs i a).inodes j).attrib.testBit k = (fs.inodes j).attrib.testBit k) := by
  refine ⟨rfl, rfl, fun j => ?_, fun j k hk hb => ?_⟩
  · have h := set_attribute_inodes fs i a j
    exact ⟨h.1, h.2.1, h.2.2.1⟩
  · rw [(set_attribute_inodes fs i a j).2.2.2]
    by_cases hj : j = i
    · subst hj; rw [if_pos rfl]; exact hbits k hk hb
    · rw [if_neg hj]

theorem attribBody_cases (fs : FS) (filename : List Nat) (attri set : Int) (i : Nat) :
    (attribBody fs filename attri set i).2 = fs ∨
    (attri = 1 ∧ (attribBody fs filename attri set i).2
      = set_attribute fs (fs.directory i).inode.toNat
          ((fs.inodes (fs.directory i).inode.toNat).attrib ||| HIDDEN)) ∨
    (attri = 2 ∧ (attribBody fs filename attri set i).2
      = set_attribute fs (fs.directory i).inode.toNat
          ((fs.inodes (fs.directory i).inode.toNat).attrib ||| READONLY)) ∨
    (attri = 1 ∧ (attribBody fs filename attri set i).2
      = set_attribute fs (fs.directory i).inode.toNat
          ((fs.inodes (fs.directory i).inode.toNat).attrib &&& (255 - HIDDEN))) ∨
    (attri = 2 ∧ (attribBody fs filename attri set i).2
      = set_attribute fs (fs.directory i).inode.toNat
          ((fs.inodes (fs.directory i).inode.toNat).attrib &&& (255 - READONLY))) := by
  unfold attribBody
  simp only
  split_ifs
  all_goals first
    | exact Or.inl rfl
    | (exfalso; omega)
    | exact Or.inr (Or.inl ⟨by omega, rfl⟩)
    | exact Or.inr (Or.inr (Or.inl ⟨by omega, rfl⟩))
    | exact Or.inr (Or.inr (Or.inr (Or.inl ⟨by omega, rfl⟩)))
    | exact Or.inr (Or.inr (Or.inr (Or.inr ⟨by omega, rfl⟩)))

theorem attribBody_frame (fs : FS) (filename : List Nat) (attri set : Int) (i : Nat) :
    (attribBody fs filename attri set i).2.directory = fs.directory ∧
    (attribBody fs filename attri set i).2.data = fs.data ∧
    (∀ j, ((attribBody fs filename attri set i).2.inodes j).blocks = (fs.inodes j).blocks ∧
      ((attribBody fs filename attri set i).2.inodes j).in_use = (fs.inodes j).in_use ∧
      ((attribBody fs filename attri set i).2.inodes j).file_size = (fs.inodes j).file_size) ∧
    (∀ j k, k < 8 → ¬ (attri = 1 ∧ k = 0) → ¬ (attri = 2 ∧ k = 1) →
      ((attribBody fs filename attri set i).2.inodes j).attrib.testBit k
        = (fs.inodes j).attrib.testBit k) := by
  rcases attribBody_cases fs filename attri set i with h | ⟨h1, h⟩ | ⟨h2, h⟩ | ⟨h1, h⟩ | ⟨h2, h⟩
  · rw [h]
    exact ⟨rfl, rfl, fun _ => ⟨rfl, rfl, rfl⟩, fun _ _ _ _ _ => rfl⟩
  · rw [h]
    have hf := set_attribute_frame fs (fs.directory i).inode.toNat
      ((fs.inodes (fs.directory i).inode.toNat).attrib ||| HIDDEN) 0
      (fun k _ hk => testBit_lor_bit _ k 0 hk)
    exact ⟨hf.1, hf.2.1, hf.2.2.1, fun j k hk hb _ => hf.2.2.2 j k hk (fun h0 => hb ⟨h1, h0⟩)⟩
  · rw [h]
    have hf := set_attribute_frame fs (fs.directory i).inode.toNat
      ((fs.inodes (fs.directory i).inode.toNat).attrib ||| READONLY) 1
      (fun k _ hk => testBit_lor_bit _ k 1 hk)
    exact ⟨hf.1, hf.2.1, hf.2.2.1, fun j k hk _ hb => hf.2.2.2 j k hk (fun h0 => hb ⟨h2, h0⟩)⟩
  · rw [h]
    have hf := set_attribute_frame fs (fs.directory i).inode.toNat
      ((fs.inodes (fs.directory i).inode.toNat).attrib &&& (255 - HIDDEN)) 0
      (fun k h8 hk => testBit_land_254 _ k hk h8)
    exact ⟨hf.1, hf.2.1, hf.2.2.1, fun j k hk hb _ => hf.2.2.2 j k hk (fun h0 => hb ⟨h1, h0⟩)⟩
  · rw [h]
    have hf := set_attribute_frame fs (fs.directory i).inode.toNat
      ((fs.inodes (fs.directory i).inode.toNat).attrib &&& (255 - READONLY)) 1
      (fun k h8 hk => testBit_land_253 _ k hk h8)
    exact ⟨hf.1, hf.2.1, hf.2.2.1, fun j k hk _ hb => hf.2.2.2 j k hk (fun h0 => hb ⟨h2, h0⟩)⟩

/-! ## `deletefs` of the only file -/

theorem blocksFor_le (n : Nat) (h : n ≤ MAX_FILE_SIZE) : blocksFor n ≤ BLOCKS_PER_FILE := by
  unfold blocksFor
  simp only [BLOCK_SIZE, BLOCKS_PER_FILE, MAX_FILE_SIZE] at *
  omega

theorem blocksFor_pos (n : Nat) (h : 0 < blocksFor n) : 0 < n := by
  unfold blocksFor at h
  simp only [BLOCK_SIZE] at h
  omega

theorem blocksFor_mono (n m : Nat) (h : n ≤ m) : blocksFor n ≤ blocksFor m := by
  unfold blocksFor
  exact Nat.div_le_div_right (by omega)

theorem lookup_freshEntry (fs : FS) (name : List Nat) (h : fs.directory 0 = freshEntry name) :
    lookup fs name = some 0 :=
  lookup_eq_some fs name 0 (by decide)
    (by rw [h]; show (1 : Int) ≠ 0; decide)
    (by rw [h]; exact strcmp_eq_freshEntry name)
    (fun j hj => absurd hj (Nat.not_lt_zero j))

/-- Deleting the file held in slot 0 (directory entry 0, inode 0, every listed block
1001) gives back a state whose slot 0 is free. -/
theorem deletefs_slotZero (fs : FS) (name : List Nat) (r : Nat)
    (hdir : fs.directory 0 = freshEntry name)
    (hblk : ∀ k, (fs.inodes 0).blocks k = if k < r then 1001 else -1)
    (hr : r ≤ BLOCKS_PER_FILE)
    (hflags : ∀ i, i < 1024 → free_blocks fs i ≠ 0) :
    (deletefs fs name).1 = true ∧ SlotZeroFree (deletefs fs name).2 := by
  have hl := lookup_freshEntry fs name hdir
  have hino : (fs.directory 0).inode.toNat = 0 := by rw [hdir]; rfl
  refine ⟨deletefs_found fs name 0 hl, ?_, ?_, ?_, ?_⟩
  · rw [deletefs_directory fs name 0 hl, Function.update_same]
    rfl
  · intro k
    rw [deletefs_eq fs name 0 hl, hino]
    simp only [set_inode_inodes, Function.update_same]
    rw [deleteBlocks_blocks]
    by_cases hk : k < BLOCKS_PER_FILE
    · rw [if_pos hk]
    · rw [if_neg hk, set_directory_inodes, hblk k, if_neg (by omega)]
  · unfold free_inodes
    rw [deletefs_data fs name 0 hl, hino]
    simp [writeByte]
  · intro i hi
    unfold free_blocks
    rw [deletefs_data fs name 0 hl, hino]
    simp only [writeByte]
    rw [if_neg (by intro h; simp only [BLOCK_SIZE] at h; omega)]
    rcases deleteBlocks_data_cases 0 BLOCKS_PER_FILE
      (set_directory fs 0 { filename := List.replicate 64 0, in_use := 0, inode := -1 })
      (1000 + i / BLOCK_SIZE) (i % BLOCK_SIZE) with h1 | h1
    · rw [h1, set_directory_data]
      exact hflags i hi
    · rw [h1]; exact Nat.one_ne_zero

/-- The chain `insert a; delete a; insert b` on a fresh filesystem. -/
theorem insert_delete_insert (hostA hostB : Host) (a b contentA contentB : List Nat)
    (hA : hostA a = some contentA) (hB : hostB b = some contentB)
    (hna : strlen a ≤ MAX_NAME_SIZE) (hnb : strlen b ≤ MAX_NAME_SIZE)
    (hsA : contentA.length ≤ MAX_FILE_SIZE) (hsB : contentB.length ≤ contentA.length) :
    (insertfs createfs hostA a).1 = InsertOutcome.inserted ∧
    (insertfs createfs hostA a).2.directory 0 = freshEntry a ∧
    (∀ k, ((insertfs createfs hostA a).2.inodes 0).blocks k
      = if k < blocksFor contentA.length then 1001 else -1) ∧
    (deletefs (insertfs createfs hostA a).2 a).1 = true ∧
    (insertfs (deletefs (insertfs createfs hostA a).2 a).2 hostB b).1 = InsertOutcome.inserted ∧
    (insertfs (deletefs (insertfs createfs hostA a).2 a).2 hostB b).2.directory 0 = freshEntry b ∧
    (∀ k, ((insertfs (deletefs (insertfs createfs hostA a).2 a).2 hostB b).2.inodes 0).blocks k
      = if k < blocksFor contentB.length then 1001 else -1) := by
  have h1 := insertfs_slotZero createfs hostA a contentA slotZeroFree_createfs hA hna hsA
  have hd1 : (insertfs createfs hostA a).2.directory 0 = freshEntry a := by
    rw [h1.2.1, Function.update_same]
  have hflags : ∀ i, i < 1024 → free_blocks (insertfs createfs hostA a).2 i ≠ 0 := by
    intro i hi
    unfold free_blocks
    rw [h1.2.2.2.2.2.2.2 _ _ (by simp only [BLOCK_SIZE]; omega)]
    exact slotZeroFree_createfs.2.2.2 i hi
  have h2 := deletefs_slotZero (insertfs createfs hostA a).2 a (blocksFor contentA.length)
    hd1 h1.2.2.1 (blocksFor_le _ hsA) hflags
  have h3 := insertfs_slotZero (deletefs (insertfs createfs hostA a).2 a).2 hostB b contentB
    h2.2 hB hnb (le_trans hsB hsA)
  refine ⟨h1.1, hd1, h1.2.2.1, h2.1, h3.1, ?_, h3.2.2.1⟩
  rw [h3.2.1, Function.update_same]

/-! ## The frame of `encryptfs` / `decryptfs` -/

theorem findFreeBlock_cases (fs : FS) :
    findFreeBlock fs = -1 ∨
    ∃ i, i < NUM_BLOCKS ∧ findFreeBlock fs = (i : Int) + FIRST_DATA_BLOCK ∧ free_blocks fs i ≠ 0 := by
  unfold findFreeBlock
  cases h : firstIndex (fun i => free_blocks fs i != 0) NUM_BLOCKS 0 with
  | none => exact Or.inl rfl
  | some i =>
    rw [firstIndex_eq_some_iff] at h
    exact Or.inr ⟨i, by omega, rfl, by simpa using h.2.2.1⟩

theorem findFreeInode_cases (fs : FS) :
    findFreeInode fs = -1 ∨
    ∃ k, k < NUM_FILES ∧ findFreeInode fs = (k : Int) ∧ free_inodes fs k ≠ 0 := by
  unfold findFreeInode
  cases h : firstIndex (fun i => free_inodes fs i != 0) NUM_FILES 0 with
  | none => exact Or.inl rfl
  | some i =>
    rw [firstIndex_eq_some_iff] at h
    exact Or.inr ⟨i, by omega, rfl, by simpa using h.2.2.1⟩

theorem lookup_createfs (filename : List Nat) : lookup createfs filename = none :=
  lookup_eq_none createfs filename (fun _ _ => rfl)

theorem cryptInode_createfs :
    cryptInode createfs nameA =
      (0, set_free_inodes
        (set_directory createfs 0
          { filename := strcpy (List.replicate 64 0) nameA, in_use := 1, inode := 0 })
        0 0) := by
  unfold cryptInode
  simp only [lookup_createfs, findFreeInode_createfs]
  rfl

theorem encryptfs_createfs_small (cipher : Nat) :
    (cryptfs createfs (hostOf nameA [98]) nameA cipher).1 = CryptOutcome.done ∧
    (cryptfs createfs (hostOf nameA [98]) nameA cipher).2.1 = stateEncrypted := by
  unfold cryptfs
  rw [hostOf_self]
  simp only
  rw [if_neg (by decide), cryptInode_createfs]
  simp only
  rw [if_neg (by decide)]
  have hn : (Int.tdiv (toInt32 ([98] : List Nat).length) BLOCK_SIZE + 1).toNat = 1 := by decide
  rw [hn]
  unfold cryptLoop
  simp only
  rw [findFreeBlock_of_first _ (by decide), if_neg (show ¬ (1001 : Int) = -1 by decide)]
  unfold cryptLoop
  exact ⟨rfl, rfl⟩

/-! ## First fit -/

theorem findFreeBlock_eq_of_lowest (fs : FS) (i : Nat) (hi : i < NUM_BLOCKS)
    (hset : free_blocks fs i ≠ 0) (hlow : ∀ j, j < i → free_blocks fs j = 0) :
    findFreeBlock fs = (FIRST_DATA_BLOCK : Int) + i := by
  have h : firstIndex (fun i => free_blocks fs i != 0) NUM_BLOCKS 0 = some i := by
    rw [firstIndex_eq_some_iff]
    refine ⟨Nat.zero_le _, by omega, by simpa using hset, fun j _ hj => ?_⟩
    simp [hlow j hj]
  unfold findFreeBlock
  rw [h]
  exact Int.add_comm _ _

theorem findFreeBlock_eq_neg_one_iff (fs : FS) :
    findFreeBlock fs = -1 ↔ ∀ i, i < NUM_BLOCKS → free_blocks fs i = 0 := by
  constructor
  · intro h i hi
    by_contra hne
    rcases findFreeBlock_cases fs with h1 | ⟨k, _, h1, _⟩
    · unfold findFreeBlock at h1
      cases hf : firstIndex (fun i => free_blocks fs i != 0) NUM_BLOCKS 0 with
      | none =>
        rw [firstIndex_eq_none_iff] at hf
        have := hf i (Nat.zero_le _) (by omega)
        simp at this
        exact hne this
      | some k =>
        rw [hf] at h1
        simp only [FIRST_DATA_BLOCK] at h1
        omega
    · rw [h1] at h
      simp only [FIRST_DATA_BLOCK] at h
      omega
  · intro h
    have hf : firstIndex (fun i => free_blocks fs i != 0) NUM_BLOCKS 0 = none := by
      rw [firstIndex_eq_none_iff]
      intro j _ hj
      simp [h j (by omega)]
    unfold findFreeBlock
    rw [hf]

theorem findFreeInode_eq_of_lowest (fs : FS) (i : Nat) (hi : i < NUM_FILES)
    (hset : free_inodes fs i ≠ 0) (hlow : ∀ j, j < i → free_inodes fs j = 0) :
    findFreeInode fs = (i : Int) := by
  have h : firstIndex (fun i => free_inodes fs i != 0) NUM_FILES 0 = some i := by
    rw [firstIndex_eq_some_iff]
    refine ⟨Nat.zero_le _, by omega, by simpa using hset, fun j _ hj => ?_⟩
    simp [hlow j hj]
  unfold findFreeInode
  rw [h]

theorem findFreeInode_eq_neg_one_iff (fs : FS) :
    findFreeInode fs = -1 ↔ ∀ i, i < NUM_FILES → free_inodes fs i = 0 := by
  constructor
  · intro h i hi
    by_contra hne
    unfold findFreeInode at h
    cases hf : firstIndex (fun i => free_inodes fs i != 0) NUM_FILES 0 with
    | none =>
      rw [firstIndex_eq_none_iff] at hf
      have := hf i (Nat.zero_le _) (by omega)
      simp at this
      exact hne this
    | some k =>
      rw [hf] at h
      simp only at h
      omega
  · intro h
    have hf : firstIndex (fun i => free_inodes fs i != 0) NUM_FILES 0 = none := by
      rw [firstIndex_eq_none_iff]
      intro j _ hj
      simp [h j (by omega)]
    unfold findFreeInode
    rw [hf]

theorem findFreeBlock_ge (fs : FS) :
    findFreeBlock fs = -1 ∨ (FIRST_DATA_BLOCK : Int) ≤ findFreeBlock fs := by
  rcases findFreeBlock_cases fs with h | ⟨i, _, h, _⟩
  · exact Or.inl h
  · refine Or.inr ?_
    rw [h]
    omega

/-! ## Counting block-list entries -/

theorem count_lt (m : Nat) : ∀ n, m ≤ n → Nat.count (fun k => k < m) n = m := by
  intro n
  induction n with
  | zero =>
    intro h
    have : m = 0 := by omega
    subst this
    rfl
  | succ n ih =>
    intro h
    rw [Nat.count_succ]
    by_cases hm : m ≤ n
    · rw [ih hm, if_neg (by omega)]
      rfl
    · have hmn : m = n + 1 := by omega
      have hall : Nat.count (fun k => k < m) n = n := by
        apply count_all
        intro i hi
        omega
      rw [hall, if_pos (by omega), hmn]

theorem stateAB_blocks (k : Nat) : (stateAB.inodes 0).blocks k ≠ -1 ↔ k < 2 := by
  have hb : (stateAB.inodes 0).blocks k
      = Function.update (Function.update (fun _ => (-1 : Int)) 0 1001) 1 1001 k := rfl
  rw [hb]
  by_cases h1 : k = 1
  · subst h1
    simp
  · rw [Function.update_noteq h1]
    by_cases h0 : k = 0
    · subst h0
      simp
    · rw [Function.update_noteq h0]
      constructor
      · intro h
        exact absurd rfl h
      · intro h
        omega

theorem validBlocks_stateAB : validBlocks (stateAB.inodes 0) = 2 := by
  unfold validBlocks
  rw [count_congr _ (fun k => k < 2) BLOCKS_PER_FILE (fun k _ => stateAB_blocks k)]
  exact count_lt 2 BLOCKS_PER_FILE (by decide)

/-! ## The host file under `encryptfs` / `decryptfs` -/

theorem xorBlock_first (file : List Nat) (cipher : Nat) (h : file.length ≤ BLOCK_SIZE) :
    xorBlock file cipher 0
      = file.map (fun c => c ^^^ cipher)
          ++ List.replicate (BLOCK_SIZE - file.length) (0 ^^^ cipher) := by
  unfold xorBlock
  simp only [Nat.zero_mul, List.drop_zero, List.take_zero, List.nil_append, Nat.zero_add,
    Nat.one_mul]
  rw [List.take_of_length_le h, List.drop_of_length_le h, List.append_nil, List.map_append,
    List.map_replicate]

theorem xorBlock_append (file : List Nat) (cipher i : Nat) (h : file.length = i * BLOCK_SIZE) :
    xorBlock file cipher i = file ++ List.replicate BLOCK_SIZE (0 ^^^ cipher) := by
  unfold xorBlock
  have h1 : file.drop (i * BLOCK_SIZE) = [] := List.drop_of_length_le (by omega)
  have h2 : file.take (i * BLOCK_SIZE) = file := List.take_of_length_le (by omega)
  have h3 : file.drop ((i + 1) * BLOCK_SIZE) = [] :=
    List.drop_of_length_le (by rw [h, Nat.add_mul]; omega)
  simp only [h1, h2, h3, List.take_nil, List.length_nil, List.nil_append, List.append_nil,
    Nat.sub_zero, List.map_replicate]

theorem xorBlock_one : xorBlock [98] 5 0 = 103 :: List.replicate 1023 5 := by
  rw [xorBlock_first _ _ (by decide)]
  rfl

theorem length_encrypted : (103 :: List.replicate 1023 5 : List Nat).length = 1024 := by
  rw [List.length_cons, List.length_replicate]

theorem xorBlock_encrypted :
    xorBlock (103 :: List.replicate 1023 5) 5 0 = 98 :: List.replicate 1023 0 := by
  rw [xorBlock_first _ _ (by rw [length_encrypted]), length_encrypted, List.map_cons,
    List.map_replicate, Nat.sub_self, List.replicate_zero, List.append_nil]
  rfl

theorem xorBlock_second :
    xorBlock (98 :: List.replicate 1023 0) 5 1
      = 98 :: (List.replicate 1023 0 ++ List.replicate 1024 5) := by
  rw [xorBlock_append _ _ 1 (by simp only [List.length_cons, List.length_replicate, BLOCK_SIZE])]
  rfl

theorem encryptfs_createfs_host :
    (cryptfs createfs (hostOf nameA [98]) nameA 5).2.2 = hostEncrypted := by
  unfold cryptfs
  rw [hostOf_self]
  simp only
  rw [if_neg (by decide), cryptInode_createfs]
  simp only
  rw [if_neg (by decide)]
  have hn : (Int.tdiv (toInt32 ([98] : List Nat).length) BLOCK_SIZE + 1).toNat = 1 := by decide
  rw [hn]
  unfold cryptLoop
  simp only
  rw [findFreeBlock_of_first _ (by decide), if_neg (show ¬ (1001 : Int) = -1 by decide)]
  unfold cryptLoop
  simp only
  rw [xorBlock_one]
  rfl

theorem hostEncrypted_self : hostEncrypted nameA = some (103 :: List.replicate 1023 5) := by
  unfold hostEncrypted
  rw [Function.update_same]

theorem lookup_stateEncrypted : lookup stateEncrypted nameA = some 0 :=
  lookup_eq_some stateEncrypted nameA 0 (by decide) (by decide) (by decide)
    (fun j hj => absurd hj (Nat.not_lt_zero j))

theorem cryptInode_stateEncrypted : cryptInode stateEncrypted nameA = (0, stateEncrypted) := by
  unfold cryptInode
  simp only [lookup_stateEncrypted]
  rfl

theorem findFreeBlock_stateEncrypted : findFreeBlock stateEncrypted = 1002 :=
  (findFreeBlock_eq_of_lowest stateEncrypted 1 (by decide) (by decide)
    (fun j hj => by
      have h0 : j = 0 := by omega
      subst h0
      decide)).trans (by decide)

theorem findFreeBlock_second_pass :
    findFreeBlock (cryptStep (Int.toNat 0) 1024 0 1002 stateEncrypted) = 1003 :=
  (findFreeBlock_eq_of_lowest _ 2 (by decide) (by decide)
    (fun j hj => by
      have h0 : j = 0 ∨ j = 1 := by omega
      rcases h0 with h0 | h0
      · subst h0
        decide
      · subst h0
        decide)).trans (by decide)

theorem decryptfs_stateEncrypted :
    (cryptfs stateEncrypted hostEncrypted nameA 5).1 = CryptOutcome.done ∧
    (cryptfs stateEncrypted hostEncrypted nameA 5).2.2 nameA
      = some (98 :: (List.replicate 1023 0 ++ List.replicate 1024 5)) := by
  unfold cryptfs
  rw [hostEncrypted_self]
  simp only
  rw [length_encrypted]
  have ht : toInt32 1024 = 1024 := toInt32_small 1024 (by decide)
  rw [ht, if_neg (by decide), cryptInode_stateEncrypted]
  simp only
  rw [if_neg (show ¬ (0 : Int) = -1 by decide)]
  have hn : (Int.tdiv 1024 (BLOCK_SIZE : Int) + 1).toNat = 2 := by decide
  rw [hn]
  unfold cryptLoop
  simp only
  rw [findFreeBlock_stateEncrypted, if_neg (show ¬ (1002 : Int) = -1 by decide), xorBlock_encrypted]
  unfold cryptLoop
  simp only
  rw [findFreeBlock_second_pass, if_neg (show ¬ (1003 : Int) = -1 by decide), xorBlock_second]
  unfold cryptLoop
  simp only
  rw [Function.update_same]
  exact ⟨rfl, rfl⟩

theorem encryptfs_eq (fs : FS) (host : Host) (filename : List Nat) (cipher : Nat) :
    encryptfs fs host filename cipher = cryptfs fs host filename cipher := rfl

theorem decryptfs_eq (fs : FS) (host : Host) (filename : List Nat) (cipher : Nat) :
    decryptfs fs host filename cipher = cryptfs fs host filename cipher := rfl

/-! ## The directory under sequences of `insertfs` and `deletefs` -/

theorem insertfs_no_file (fs : FS) (host : Host) (filename : List Nat)
    (h : host filename = none) : insertfs fs host filename = (InsertOutcome.file_not_exist, fs) := by
  unfold insertfs
  rw [h]

theorem insertfs_directory (fs : FS) (host : Host) (filename content : List Nat) (d ino : Nat)
    (hfile : host filename = some content) (hname : strlen filename ≤ MAX_NAME_SIZE)
    (hsize : content.length ≤ MAX_FILE_SIZE) (hspace : content.length ≤ dffs fs)
    (hdir : firstIndex (fun i => (fs.directory i).in_use == 0) NUM_FILES 0 = some d)
    (hino : findFreeInode fs = (ino : Int)) :
    (insertfs fs host filename).2.directory =
      Function.update fs.directory d
        { filename := strncpy (fs.directory d).filename filename (strlen filename)
          in_use := 1
          inode := (ino : Int) } := by
  rw [insertfs_eq_loop fs host filename content d ino hfile hname hsize hspace hdir hino,
    insertLoop_directory content ino content.length _ _ _ (by simp)]
  rfl

theorem insertfs_directory_cases (fs : FS) (host : Host) (filename : List Nat) :
    (insertfs fs host filename).2.directory = fs.directory ∨
    ∃ d ino content, host filename = some content ∧ strlen filename ≤ MAX_NAME_SIZE ∧
      firstIndex (fun i => (fs.directory i).in_use == 0) NUM_FILES 0 = some d ∧
      (insertfs fs host filename).2.directory =
        Function.update fs.directory d
          { filename := strncpy (fs.directory d).filename filename (strlen filename)
            in_use := 1
            inode := (ino : Int) } := by
  cases hfile : host filename with
  | none =>
    rw [insertfs_no_file fs host filename hfile]
    exact Or.inl rfl
  | some content =>
    by_cases hrej : strlen filename > MAX_NAME_SIZE ∨ content.length > MAX_FILE_SIZE ∨
        content.length > dffs fs ∨
        firstIndex (fun i => (fs.directory i).in_use == 0) NUM_FILES 0 = none ∨
        findFreeInode fs = -1
    · rw [(insertfs_rejected fs host filename content hfile hrej).2.2]
      exact Or.inl rfl
    · simp only [not_or] at hrej
      obtain ⟨h1, h2, h3, h4, h5⟩ := hrej
      cases hdir : firstIndex (fun i => (fs.directory i).in_use == 0) NUM_FILES 0 with
      | none => exact absurd hdir h4
      | some d =>
        rcases findFreeInode_cases fs with h | ⟨k, _, hk, _⟩
        · exact absurd h h5
        · exact Or.inr ⟨d, k, content, rfl, by omega, rfl,
            insertfs_directory fs host filename content d k hfile (by omega) (by omega)
              (by omega) hdir hk⟩

theorem dirInv_createfs : DirInv createfs :=
  ⟨fun _ _ => rfl, fun _ _ => rfl, fun _ _ _ _ h _ _ => absurd rfl h⟩

theorem dirInv_of_directory (fs fs2 : FS) (h : fs2.directory = fs.directory) (hinv : DirInv fs) :
    DirInv fs2 := by
  unfold DirInv NamesUnique at *
  rw [h]
  exact hinv

theorem lookup_none_not_in_use (fs : FS) (filename : List Nat) (h : lookup fs filename = none)
    (j : Nat) (hj : j < NUM_FILES) (huse : (fs.directory j).in_use ≠ 0) :
    strcmp_eq (fs.directory j).filename filename = false := by
  unfold lookup at h
  rw [firstIndex_eq_none_iff] at h
  have := h j (Nat.zero_le _) (by omega)
  simpa [huse] using this

theorem strcmp_eq_strncpy_zeros (name other : List Nat) :
    strcmp_eq (strncpy (List.replicate 64 0) name (strlen name)) other = strcmp_eq name other := by
  unfold strcmp_eq
  rw [cstr_strncpy_zeros]

theorem strcmp_eq_comm (a b : List Nat) : strcmp_eq a b = strcmp_eq b a := by
  unfold strcmp_eq
  by_cases h : cstr a = cstr b
  · rw [h]
  · have h2 : ¬ cstr b = cstr a := fun hc => h hc.symm
    simp [h, h2]

theorem dirInv_insertfs (fs : FS) (host : Host) (filename : List Nat) (hinv : DirInv fs)
    (hfresh : lookup fs filename = none) : DirInv (insertfs fs host filename).2 := by
  rcases insertfs_directory_cases fs host filename with h | ⟨d, ino, content, _, _, hd, h⟩
  · exact dirInv_of_directory fs _ h hinv
  · rw [firstIndex_eq_some_iff] at hd
    obtain ⟨_, hdlt, hdfree, _⟩ := hd
    have hd0 : (fs.directory d).in_use = 0 := by simpa using hdfree
    have hzero := hinv.1 d hd0
    have hdn : d < NUM_FILES := by omega
    unfold DirInv NamesUnique
    rw [h, hzero]
    refine ⟨fun i hi => ?_, fun i hi => ?_, fun i hi j hj hui huj hij => ?_⟩
    · by_cases hid : i = d
      · subst hid
        rw [Function.update_same] at hi
        exact absurd hi (show ¬ (1 : Int) = 0 by decide)
      · rw [Function.update_noteq hid] at hi ⊢
        exact hinv.1 i hi
    · have hid : i ≠ d := by omega
      rw [Function.update_noteq hid]
      exact hinv.2.1 i hi
    · by_cases hid : i = d
      · by_cases hjd : j = d
        · rw [hid, hjd]
        · exfalso
          rw [hid, Function.update_same, Function.update_noteq hjd, strcmp_eq_strncpy_zeros,
            strcmp_eq_comm] at hij
          rw [Function.update_noteq hjd] at huj
          have := lookup_none_not_in_use fs filename hfresh j hj huj
          rw [this] at hij
          exact absurd hij (by decide)
      · by_cases hjd : j = d
        · exfalso
          rw [hjd, Function.update_same, Function.update_noteq hid, strcmp_eq_comm,
            strcmp_eq_strncpy_zeros, strcmp_eq_comm] at hij
          rw [Function.update_noteq hid] at hui
          have := lookup_none_not_in_use fs filename hfresh i hi hui
          rw [this] at hij
          exact absurd hij (by decide)
        · rw [Function.update_noteq hid] at hui hij
          rw [Function.update_noteq hjd] at huj hij
          exact hinv.2.2 i hi j hj hui huj hij

theorem dirInv_deletefs (fs : FS) (filename : List Nat) (hinv : DirInv fs) :
    DirInv (deletefs fs filename).2 := by
  cases hl : lookup fs filename with
  | none =>
    rw [deletefs_not_found fs filename hl]
    exact hinv
  | some d =>
    unfold DirInv NamesUnique
    rw [deletefs_directory fs filename d hl]
    refine ⟨fun i hi => ?_, fun i hi => ?_, fun i hi j hj hui huj hij => ?_⟩
    · by_cases hid : i = d
      · rw [hid, Function.update_same]
      · rw [Function.update_noteq hid] at hi ⊢
        exact hinv.1 i hi
    · by_cases hid : i = d
      · rw [hid, Function.update_same]
      · rw [Function.update_noteq hid]
        exact hinv.2.1 i hi
    · have hid : i ≠ d := by
        intro hc
        rw [hc, Function.update_same] at hui
        exact hui rfl
      have hjd : j ≠ d := by
        intro hc
        rw [hc, Function.update_same] at huj
        exact huj rfl
      rw [Function.update_noteq hid] at hui hij
      rw [Function.update_noteq hjd] at huj hij
      exact hinv.2.2 i hi j hj hui huj hij

theorem dirInv_runCalls (calls : List Call) :
    ∀ fs, DirInv fs → freshNames fs calls = true → DirInv (runCalls fs calls) := by
  induction calls with
  | nil =>
    intro fs hinv _
    exact hinv
  | cons c rest ih =>
    intro fs hinv hfresh
    cases c with
    | insert host filename =>
      simp only [freshNames, Bool.and_eq_true, Option.isNone_iff_eq_none] at hfresh
      exact ih _ (dirInv_insertfs fs host filename hinv hfresh.1) hfresh.2
    | delete filename =>
      simp only [freshNames] at hfresh
      exact ih _ (dirInv_deletefs fs filename hinv) hfresh

theorem runCall_insert (fs : FS) (host : Host) (filename : List Nat) :
    runCall fs (Call.insert host filename) = (insertfs fs host filename).2 := rfl

theorem runCall_delete (fs : FS) (filename : List Nat) :
    runCall fs (Call.delete filename) = (deletefs fs filename).2 := rfl

theorem runCalls_nil (fs : FS) : runCalls fs [] = fs := rfl

theorem runCalls_cons (fs : FS) (c : Call) (rest : List Call) :
    runCalls fs (c :: rest) = runCalls (runCall fs c) rest := rfl

theorem runCall_createfs_insert :
    runCall createfs (Call.insert (hostOf nameA [98]) nameA) = stateOne nameA [98] := by
  rw [runCall_insert, insertfs_createfs_small nameA [98] (by decide) (by decide) (by decide)]

theorem firstFree_stateOne :
    firstIndex (fun i => ((stateOne nameA [98]).directory i).in_use == 0) NUM_FILES 0
      = some 1 := by
  rw [firstIndex_eq_some_iff]
  refine ⟨by decide, by decide, by decide, ?_⟩
  intro j _ hj
  have : j = 0 := by omega
  subst this
  decide

theorem directory_callsTwice :
    (runCalls createfs callsTwice).directory =
      Function.update (stateOne nameA [98]).directory 1
        { filename := strncpy (List.replicate 64 0) nameA (strlen nameA)
          in_use := 1
          inode := 0 } := by
  have hspace : ([98] : List Nat).length ≤ dffs (stateOne nameA [98]) := by
    have := dffs_ge_of_flag (stateOne nameA [98]) 0 (by decide) (by decide)
    simp only [BLOCK_SIZE, List.length_singleton] at *
    omega
  have hino : findFreeInode (stateOne nameA [98]) = ((0 : Nat) : Int) :=
    findFreeInode_of_first _ (by decide)
  unfold callsTwice
  rw [runCalls_cons, runCall_createfs_insert, runCalls_cons, runCalls_nil, runCall_insert,
    insertfs_directory (stateOne nameA [98]) (hostOf nameA [98]) nameA [98] 1 0
      (hostOf_self _ _) (by decide) (by decide) hspace firstFree_stateOne hino]
  rfl

theorem lookup_stateOne_other : lookup (stateOne nameA [98]) nameB = none := by
  unfold lookup
  rw [firstIndex_eq_none_iff]
  intro j _ _
  by_cases hj : j = 0
  · subst hj
    decide
  · have hd : (stateOne nameA [98]).directory j = emptyEntry := by
      unfold stateOne
      simp only
      rw [Function.update_noteq hj]
      rfl
    rw [hd]
    rfl

theorem freshNames_callsThree : freshNames createfs callsThree = true := by
  unfold callsThree
  simp only [freshNames, runCall_createfs_insert, lookup_createfs, lookup_stateOne_other, Option.isNone_none,
    Bool.and_self, Bool.true_and]


/-! ## The frame of `encryptfs` / `decryptfs` on the slots below 244 -/

theorem deletefs_eq_reset (fs : FS) (filename : List Nat) (i : Nat)
    (h : lookup fs filename = some i) (hlow : (fs.directory i).inode.toNat < LOW_INODES) :
    (deletefs fs filename).2 =
      deletefs_reset
        (deleteBlocks (fs.directory i).inode.toNat BLOCKS_PER_FILE
          (set_directory fs i { filename := List.replicate 64 0, in_use := 0, inode := -1 }))
        (fs.directory i).inode.toNat := by
  rw [deletefs_eq fs filename i h]
  unfold deletefs_reset
  simp only
  rw [if_pos hlow, set_free_inodes_inodes]

/-! ## `attribfs` with the attribute accessed in `data` -/

theorem attribfs_data_eq (fs : FS) (filename : List Nat) (attri set : Int)
    (hlow : (fs.directory 0).inode.toNat < LOW_INODES) :
    attribfs_data fs filename attri set = attribfs fs filename attri set := by
  have h0 : (0 : Nat) < LOW_INODES := by decide
  unfold attribfs_data attribfs attribBody attribute_at set_attribute_at
  simp only [if_pos hlow, if_pos h0]
/-! # The claims -/

/-- C1 (the code breaks it): on a fresh filesystem the one-byte host file `a`
holding the byte 98 is inserted, and `retrievefs a` then writes one byte, the
first byte of block 0 of the block store, which is not the byte of the file: the
copy loop of `retrievefs` reads `data[0], data[1], ...` and never the blocks
listed in the inode. -/
theorem retrievefs_after_insertfs_differs :
    (insertfs createfs (hostOf nameA [98]) nameA).1 = InsertOutcome.inserted ∧
    retrievefs (insertfs createfs (hostOf nameA [98]) nameA).2 (hostOf nameA [98]) nameA
      = some [(insertfs createfs (hostOf nameA [98]) nameA).2.data 0 0] ∧
    (insertfs createfs (hostOf nameA [98]) nameA).2.data 1001 0 = 98 ∧
    retrievefs (insertfs createfs (hostOf nameA [98]) nameA).2 (hostOf nameA [98]) nameA
      ≠ some [98] := by
  rw [insertfs_createfs_small nameA [98] (by decide) (by decide) (by decide)]
  have h : retrievefs (stateOne nameA [98]) (hostOf nameA [98]) nameA
      = some [(stateOne nameA [98]).data 0 0] := by
    rw [retrievefs_eq _ _ _ [98] 0 (hostOf_self _ _) (lookup_stateOne _) (by decide)]
    rw [toInt32_small _ (by decide)]
    rw [show ([98] : List Nat).length = 1 from rfl,
      retrieveLoop_one_block _ 1 0 (by decide) (by decide)]
    rfl
  refine ⟨rfl, h, by decide, ?_⟩
  rw [h]
  decide

/-- C2 (the code breaks it): in the state left by inserting the two-byte file `a`
(bytes 98, 99, stored in block 1001, `file_size` 2) the name `a` is carried by an
in-use directory entry, yet `retrievefs a` writes nothing when the host has no
file `a`, writes one byte when the host file `a` is one byte long, and for the
unchanged host file writes the first two bytes of block 0 instead of the bytes
of block 1001. -/
theorem retrievefs_ignores_inode :
    insertfs createfs (hostOf nameA [98, 99]) nameA
      = (InsertOutcome.inserted, stateOne nameA [98, 99]) ∧
    lookup (stateOne nameA [98, 99]) nameA = some 0 ∧
    ((stateOne nameA [98, 99]).directory 0).inode = 0 ∧
    ((stateOne nameA [98, 99]).inodes 0).file_size = 2 ∧
    ((stateOne nameA [98, 99]).inodes 0).blocks 0 = 1001 ∧
    (stateOne nameA [98, 99]).data 1001 0 = 98 ∧
    (stateOne nameA [98, 99]).data 1001 1 = 99 ∧
    retrievefs (stateOne nameA [98, 99]) (fun _ => none) nameA = none ∧
    retrievefs (stateOne nameA [98, 99]) (hostOf nameA [98]) nameA
      = some [(stateOne nameA [98, 99]).data 0 0] ∧
    retrievefs (stateOne nameA [98, 99]) (hostOf nameA [98, 99]) nameA
      = some [(stateOne nameA [98, 99]).data 0 0, (stateOne nameA [98, 99]).data 0 1] ∧
    retrievefs (stateOne nameA [98, 99]) (hostOf nameA [98, 99]) nameA ≠ some [98, 99] := by
  have h1 : retrievefs (stateOne nameA [98, 99]) (hostOf nameA [98]) nameA
      = some [(stateOne nameA [98, 99]).data 0 0] := by
    rw [retrievefs_eq _ _ _ [98] 0 (hostOf_self _ _) (lookup_stateOne _) (by decide)]
    rw [toInt32_small _ (by decide)]
    rw [show ([98] : List Nat).length = 1 from rfl,
      retrieveLoop_one_block _ 1 0 (by decide) (by decide)]
    rfl
  have h2 : retrievefs (stateOne nameA [98, 99]) (hostOf nameA [98, 99]) nameA
      = some [(stateOne nameA [98, 99]).data 0 0, (stateOne nameA [98, 99]).data 0 1] := by
    rw [retrievefs_eq _ _ _ [98, 99] 0 (hostOf_self _ _) (lookup_stateOne _) (by decide)]
    rw [toInt32_small _ (by decide)]
    rw [show ([98, 99] : List Nat).length = 2 from rfl,
      retrieveLoop_one_block _ 2 0 (by decide) (by decide)]
    rfl
  refine ⟨insertfs_createfs_small nameA [98, 99] (by decide) (by decide) (by decide),
    lookup_stateOne _, rfl, rfl, rfl, by decide, by decide, rfl, h1, h2, ?_⟩
  rw [h2]
  decide

/-- C3 (the code breaks it): on a fresh filesystem, after `insert a`, `delete a`
and `undelete a` with nothing in between, `undelfs` reports that it cannot find
the file and changes nothing; no directory entry is in use and `retrievefs a`
finds no file.  `deletefs` has zeroed the name and `undelfs` searches among the
in-use entries only. -/
theorem undelfs_after_deletefs_not_found :
    insertfs createfs (hostOf nameA [98]) nameA = (InsertOutcome.inserted, stateOne nameA [98]) ∧
    (deletefs (stateOne nameA [98]) nameA).1 = true ∧
    undelfs (deletefs (stateOne nameA [98]) nameA).2 nameA
      = (false, (deletefs (stateOne nameA [98]) nameA).2) ∧
    (∀ i, i < NUM_FILES →
      ((undelfs (deletefs (stateOne nameA [98]) nameA).2 nameA).2.directory i).in_use = 0) ∧
    retrievefs (undelfs (deletefs (stateOne nameA [98]) nameA).2 nameA).2
      (hostOf nameA [98]) nameA = none := by
  have hdir : ∀ i, i < NUM_FILES →
      ((deletefs (stateOne nameA [98]) nameA).2.directory i).in_use = 0 := by
    intro i _
    rw [deletefs_directory _ _ 0 (lookup_stateOne _)]
    by_cases hi : i = 0
    · subst hi; rfl
    · rw [Function.update_noteq hi]
      show (Function.update createfs.directory 0 (freshEntry nameA) i).in_use = 0
      rw [Function.update_noteq hi]
      rfl
  have hnone := lookup_eq_none _ nameA hdir
  have hun := undelfs_not_found _ nameA hnone
  refine ⟨insertfs_createfs_small nameA [98] (by decide) (by decide) (by decide),
    deletefs_found _ _ 0 (lookup_stateOne _), hun, ?_, ?_⟩
  · rw [hun]; exact hdir
  · rw [hun]
    unfold retrievefs
    rw [hostOf_self]
    simp only [hnone]

/-- C4 (the code breaks it): on a fresh filesystem the one-byte host file `a`
holding the byte 1 is inserted, and `dffs` returns afterwards what it returned
before, not 1024 bytes less: `insertfs` never clears the free-block flag of a
block it fills. -/
theorem dffs_unchanged_by_insertfs :
    insertfs createfs (hostOf nameA [1]) nameA = (InsertOutcome.inserted, stateOne nameA [1]) ∧
    dffs createfs = NUM_BLOCKS * BLOCK_SIZE ∧
    dffs (stateOne nameA [1]) = dffs createfs ∧
    dffs (stateOne nameA [1]) ≠ dffs createfs - 1 * BLOCK_SIZE := by
  have h := dffs_of_data (stateOne nameA [1]) createfs (stateOne_data_createfs nameA)
  refine ⟨insertfs_createfs_small nameA [1] (by decide) (by decide) (by decide),
    dffs_createfs_mul, h, ?_⟩
  rw [h, dffs_createfs_mul]
  decide

/-- C5 (the code breaks it): on a fresh filesystem, inserting the one-byte host
file `a` holding the byte 0 and deleting it again leaves `dffs` 1024 bytes below
its value before the insert.  The byte of the file is stored in block 1001, whose
first byte is also `free_blocks[1024]`, and `deletefs` sets `free_blocks[0]`
only. -/
theorem dffs_after_insertfs_deletefs :
    insertfs createfs (hostOf nameA [0]) nameA = (InsertOutcome.inserted, stateOne nameA [0]) ∧
    (deletefs (stateOne nameA [0]) nameA).1 = true ∧
    dffs createfs = NUM_BLOCKS * BLOCK_SIZE ∧
    dffs (deletefs (stateOne nameA [0]) nameA).2 = (NUM_BLOCKS - 1) * BLOCK_SIZE ∧
    dffs (deletefs (stateOne nameA [0]) nameA).2 ≠ dffs createfs := by
  have h : dffs (deletefs (stateOne nameA [0]) nameA).2 = (NUM_BLOCKS - 1) * BLOCK_SIZE := by
    rw [dffs_eq, count_congr _ (fun i => i ≠ 1024) _ free_blocks_after_delete_zero, count_ne,
      if_pos (by decide)]
  refine ⟨insertfs_createfs_small nameA [0] (by decide) (by decide) (by decide),
    deletefs_found _ _ 0 (lookup_stateOne _), dffs_createfs_mul, h, ?_⟩
  rw [h, dffs_createfs_mul]
  decide

/-- Below slot 244 `deletefs` does what C6 says.  In a state where directory entry
`i` is the first in-use entry named `filename`, linked to an inode slot `ino`
below 244 (a slot whose bytes lie before block 1000) whose block-list entries
are each -1 or a data-block index (at least `FIRST_DATA_BLOCK`),
`deletefs filename` finds the file and clears exactly that entry (`in_use` 0,
name zeroed, inode link -1), sets the free-block flag of every block in the
inode's block list, resets the block list to -1, sets the free-inode flag of the
slot, and sets the inode's `in_use`, `attribute` and `file_size` to 0. -/
theorem deletefs_clears (fs : FS) (filename : List Nat) (i ino : Nat)
    (hi : i < NUM_FILES)
    (huse : (fs.directory i).in_use ≠ 0)
    (hname : strcmp_eq (fs.directory i).filename filename = true)
    (hfirst : ∀ j, j < i →
      ¬ ((fs.directory j).in_use ≠ 0 ∧ strcmp_eq (fs.directory j).filename filename = true))
    (hino : (fs.directory i).inode = (ino : Int)) (hlt : ino < LOW_INODES)
    (hblk : ∀ k, k < BLOCKS_PER_FILE →
      (fs.inodes ino).blocks k = -1 ∨ (FIRST_DATA_BLOCK : Int) ≤ (fs.inodes ino).blocks k) :
    (deletefs fs filename).1 = true ∧
    (deletefs fs filename).2.directory i
      = { filename := List.replicate 64 0, in_use := 0, inode := -1 } ∧
    (∀ j, j ≠ i → (deletefs fs filename).2.directory j = fs.directory j) ∧
    (∀ k, k < BLOCKS_PER_FILE → (fs.inodes ino).blocks k ≠ -1 →
      free_blocks (deletefs fs filename).2
        ((fs.inodes ino).blocks k - FIRST_DATA_BLOCK).toNat = 1) ∧
    (∀ k, k < BLOCKS_PER_FILE → ((deletefs fs filename).2.inodes ino).blocks k = -1) ∧
    free_inodes (deletefs fs filename).2 ino = 1 ∧
    ((deletefs fs filename).2.inodes ino).in_use = 0 ∧
    ((deletefs fs filename).2.inodes ino).attrib = 0 ∧
    ((deletefs fs filename).2.inodes ino).file_size = 0 := by
  have hl := lookup_eq_some fs filename i hi huse hname hfirst
  have hn : (fs.directory i).inode.toNat = ino := by rw [hino]; exact Int.toNat_ofNat ino
  rw [deletefs_eq fs filename i hl, hn]
  simp only [LOW_INODES] at hlt
  refine ⟨rfl, ?_, ?_, ?_, ?_, ?_, ?_, ?_, ?_⟩
  · simp only [set_inode_directory, set_free_inodes_directory, deleteBlocks_directory,
      set_directory_directory, Function.update_same]
  · intro j hj
    simp only [set_inode_directory, set_free_inodes_directory, deleteBlocks_directory,
      set_directory_directory, Function.update_noteq hj]
  · intro k hk hne
    have hge : (FIRST_DATA_BLOCK : Int) ≤ (fs.inodes ino).blocks k := by
      rcases hblk k hk with h | h
      · exact absurd h hne
      · exact h
    have hflag := deleteBlocks_flag ino BLOCKS_PER_FILE
      (set_directory fs i { filename := List.replicate 64 0, in_use := 0, inode := -1 })
      k hk hne hge
    simp only [free_blocks, set_inode_data, set_free_inodes, writeByte, set_directory_inodes]
      at hflag ⊢
    rw [if_neg (by intro h; simp only [BLOCK_SIZE] at h; omega)]
    exact hflag
  · intro k hk
    simp only [set_inode_inodes, Function.update_same]
    rw [deleteBlocks_blocks, if_pos hk]
  · simp [free_inodes, set_free_inodes, writeByte]
  · simp only [set_inode_inodes, Function.update_same]
  · simp only [set_inode_inodes, Function.update_same]
  · simp only [set_inode_inodes, Function.update_same]

/-- The theorem `deletefs_clears` at a concrete input: deleting `a` from the state
holding the one-byte file `a` in block 1001. -/
theorem deletefs_clears_witness :
    (deletefs (stateOne nameA [98]) nameA).1 = true ∧
    (deletefs (stateOne nameA [98]) nameA).2.directory 0
      = { filename := List.replicate 64 0, in_use := 0, inode := -1 } ∧
    free_blocks (deletefs (stateOne nameA [98]) nameA).2 0 = 1 ∧
    ((deletefs (stateOne nameA [98]) nameA).2.inodes 0).blocks 0 = -1 ∧
    free_inodes (deletefs (stateOne nameA [98]) nameA).2 0 = 1 ∧
    ((deletefs (stateOne nameA [98]) nameA).2.inodes 0).file_size = 0 := by
  have h := deletefs_clears (stateOne nameA [98]) nameA 0 0 (by decide) (by decide) (by decide)
    (fun j hj => absurd hj (Nat.not_lt_zero j)) rfl (by decide)
    (fun k _ => by
      by_cases hk : k = 0
      · subst hk; exact Or.inr (by decide)
      · exact Or.inl (by simp [stateOne, Function.update_noteq hk]))
  exact ⟨h.1, h.2.1, h.2.2.2.1 0 (by decide) (by decide), h.2.2.2.2.1 0 (by decide),
    h.2.2.2.2.2.1, h.2.2.2.2.2.2.2.2⟩

/-- C6 (the code breaks it): the `short` `inodes[244].in_use` is made of the bytes
`free_blocks[1952]` and `free_blocks[1953]`, the flags of the blocks 2953 and
2954; `attribute` is `free_blocks[1954]` and `file_size` is
`free_blocks[1956 .. 1959]`.  The block loop of `deletefs` marks a block 2953 of
the block list free (`free_blocks[2953 - FIRST_DATA_BLOCK] = 1`), and whatever
state the loop leaves, the stores that end `deletefs` of a file with inode 244
clear these flags again: block 2953 is not marked free after the call. -/
theorem deletefs_reset_clears_block_flags (fs : FS) :
    (20 * BLOCK_SIZE + 244 * INODE_BYTES + 4096 = 1000 * BLOCK_SIZE + 1952) ∧
    ((2953 : Int) - FIRST_DATA_BLOCK = 1952) ∧
    free_blocks (set_free_blocks fs ((2953 : Int) - FIRST_DATA_BLOCK) 1) 1952 = 1 ∧
    free_blocks (deletefs_reset (set_free_blocks fs ((2953 : Int) - FIRST_DATA_BLOCK) 1) 244) 1952
      = 0 ∧
    free_blocks (deletefs_reset fs 244) 1952 = 0 ∧
    free_blocks (deletefs_reset fs 244) 1953 = 0 ∧
    free_blocks (deletefs_reset fs 244) 1954 = 0 ∧
    (∀ k, 1956 ≤ k → k < 1960 → free_blocks (deletefs_reset fs 244) k = 0) := by
  have h : ∀ s : FS, free_blocks (deletefs_reset s 244) 1952 = 0 := by
    intro s
    simp [free_blocks, deletefs_reset, clear_file_size_bytes, LOW_INODES,
      clear_in_use_bytes, setByteFrom, writeByte, set_free_inodes, BLOCK_SIZE, INODE_BYTES]
  refine ⟨by decide, by decide, ?_, h _, h fs, ?_, ?_, ?_⟩
  · simp [free_blocks, set_free_blocks, writeByte, BLOCK_SIZE, FIRST_DATA_BLOCK]
  · simp [free_blocks, deletefs_reset, clear_file_size_bytes, LOW_INODES,
      clear_in_use_bytes, setByteFrom, writeByte, set_free_inodes, BLOCK_SIZE, INODE_BYTES]
  · simp [free_blocks, deletefs_reset, clear_file_size_bytes, LOW_INODES,
      clear_in_use_bytes, setByteFrom, writeByte, set_free_inodes, BLOCK_SIZE, INODE_BYTES]
  · intro k h1 h2
    have hk : k = 1956 ∨ k = 1957 ∨ k = 1958 ∨ k = 1959 := by omega
    rcases hk with h | h | h | h <;> subst h <;>
      simp [free_blocks, deletefs_reset, clear_file_size_bytes, LOW_INODES,
        clear_in_use_bytes, setByteFrom, writeByte, set_free_inodes, BLOCK_SIZE, INODE_BYTES]

/-- C7 (the code breaks it): in the state left by `createfs; insert a; insert b`
the name `b` is carried by the in-use directory entry 1, yet
`attribfs b HIDDEN set` reports the file as not found and leaves the state, and
so the HIDDEN bit of the inode, as it was: the `break` of the search loop is
outside the `if`, so only directory entry 0 is ever examined. -/
theorem attribfs_misses_second_entry :
    insertfs createfs (hostOf nameA [98]) nameA = (InsertOutcome.inserted, stateOne nameA [98]) ∧
    insertfs (stateOne nameA [98]) (hostOf nameB [99]) nameB = (InsertOutcome.inserted, stateAB) ∧
    (stateAB.directory 1).in_use = 1 ∧
    strcmp_eq (stateAB.directory 1).filename nameB = true ∧
    (stateAB.directory 1).inode = 0 ∧
    attribfs stateAB nameB 1 1 = (false, stateAB) ∧
    (stateAB.inodes 0).attrib &&& HIDDEN = 0 :=
  ⟨insertfs_createfs_small nameA [98] (by decide) (by decide) (by decide),
    insertfs_second_eq, by decide, by decide, by decide,
    attribfs_skips stateAB nameB 1 1 (by decide), by decide⟩

/-- C8 (the code breaks it): `listfs` never looks at the HIDDEN attribute.  After
`createfs; insert a; attrib +h a` the listing with `-h` prints nothing, so it does
not show the hidden file `a`; and after `createfs; insert .a; attrib +h .a` the
listing without `-h` prints the name of the hidden file `.a`. -/
theorem listfs_ignores_hidden_attribute :
    attribfs (stateOne nameA [98]) nameA 1 1 = (true, stateHidden nameA) ∧
    ((stateHidden nameA).directory 0).in_use = 1 ∧
    cstr ((stateHidden nameA).directory 0).filename = nameA ∧
    ((stateHidden nameA).inodes 0).attrib &&& HIDDEN = HIDDEN ∧
    (listfs (stateHidden nameA) 1 0).1 = [] ∧
    attribfs (stateOne nameDotA [98]) nameDotA 1 1 = (true, stateHidden nameDotA) ∧
    ((stateHidden nameDotA).directory 0).in_use = 1 ∧
    ((stateHidden nameDotA).inodes 0).attrib &&& HIDDEN = HIDDEN ∧
    (listfs (stateHidden nameDotA) 0 0).1 = [{ index := 0, name := nameDotA, attrib := none }] := by
  refine ⟨attribfs_stateOne nameA, by decide, by decide, by decide,
    listLines_show_hidden _ _, attribfs_stateOne nameDotA, by decide, by decide, ?_⟩
  show listLines (stateHidden nameDotA) 0 0 (255 + 1) = _
  rw [listLines_eq_first]
  · decide
  · intro i h1 _
    have hi : i ≠ 0 := by omega
    have hd : (stateHidden nameDotA).directory i = emptyEntry := by
      show Function.update createfs.directory 0 (freshEntry nameDotA) i = emptyEntry
      rw [Function.update_noteq hi]
      rfl
    unfold listEntry
    rw [hd, if_neg (by decide), if_neg (by decide)]
    rfl

/-- C9 (the code breaks it): `listfs` prints before it tests `in_use`.  With `-a`
on a fresh filesystem, where no directory entry is in use, it prints one line
for each of the `NUM_FILES` entries; and after `insert a` it prints a line for
the unused entry 1. -/
theorem listfs_emits_unused_entries :
    (∀ i, i < NUM_FILES → (createfs.directory i).in_use = 0) ∧
    (listfs createfs 0 1).1.length = NUM_FILES ∧
    { index := 0, name := [], attrib := some 0 } ∈ (listfs createfs 0 1).1 ∧
    ((stateOne nameA [98]).directory 1).in_use = 0 ∧
    { index := 1, name := [], attrib := some 0 } ∈ (listfs (stateOne nameA [98]) 0 1).1 :=
  ⟨fun _ _ => rfl, listLines_length_createfs _,
    listEntry_subset createfs 0 1 0 NUM_FILES (by decide) _ (by decide), by decide,
    listEntry_subset (stateOne nameA [98]) 0 1 1 NUM_FILES (by decide) _ (by decide)⟩

/-- C10: on a freshly created filesystem `insertfs` accepts a host file of exactly
`MAX_FILE_SIZE` bytes (with a name of at most `MAX_NAME_SIZE` characters): it runs
to the end of the copy loop and leaves directory entry 0 in use, carrying the
name and linked to inode 0, whose `file_size` is `MAX_FILE_SIZE`.  Every host file
of more than `MAX_FILE_SIZE` bytes is rejected and the filesystem is left as it
was. -/
theorem insertfs_max_file_size (host : Host) (filename content : List Nat)
    (hfile : host filename = some content) :
    (content.length = MAX_FILE_SIZE → strlen filename ≤ MAX_NAME_SIZE →
      (insertfs createfs host filename).1 = InsertOutcome.inserted ∧
      ((insertfs createfs host filename).2.directory 0).in_use = 1 ∧
      ((insertfs createfs host filename).2.directory 0).inode = 0 ∧
      cstr ((insertfs createfs host filename).2.directory 0).filename = cstr filename ∧
      ((insertfs createfs host filename).2.inodes 0).file_size = MAX_FILE_SIZE) ∧
    (MAX_FILE_SIZE < content.length →
      (insertfs createfs host filename).1 ≠ InsertOutcome.inserted ∧
      (insertfs createfs host filename).2 = createfs) := by
  constructor
  · intro hlen hname
    rw [insertfs_createfs_eq host filename content hfile hname (le_of_eq hlen)]
    refine ⟨?_, ?_, ?_, ?_, ?_⟩
    · apply insertLoop_inserted _ _ _ _ _ _ (le_refl _)
      rw [free_blocks_freshStart, free_blocks_createfs 0 (by decide)]
      exact Nat.one_ne_zero
    · rw [insertLoop_directory _ _ _ _ _ _ (le_refl _)]
      rfl
    · rw [insertLoop_directory _ _ _ _ _ _ (le_refl _)]
      rfl
    · rw [insertLoop_directory _ _ _ _ _ _ (le_refl _)]
      exact cstr_strncpy_zeros 64 filename
    · rw [(insertLoop_fields _ _ 0 _ _ _ _ (le_refl _)).2.2]
      exact hlen
  · intro hbig
    unfold insertfs
    rw [hfile]
    simp only
    by_cases hname : strlen filename > MAX_NAME_SIZE
    · rw [if_pos hname]
      exact ⟨by decide, rfl⟩
    · rw [if_neg hname, if_pos hbig]
      exact ⟨by decide, rfl⟩

/-- C10, at a concrete input: the file `a` of 1048576 zero bytes on a fresh filesystem. -/
theorem insertfs_max_file_size_witness :
    (insertfs createfs (hostOf nameA (List.replicate 1048576 0)) nameA).1 = InsertOutcome.inserted ∧
    ((insertfs createfs (hostOf nameA (List.replicate 1048576 0)) nameA).2.directory 0).in_use = 1 ∧
    ((insertfs createfs (hostOf nameA (List.replicate 1048576 0)) nameA).2.directory 0).inode = 0 ∧
    cstr ((insertfs createfs (hostOf nameA (List.replicate 1048576 0)) nameA).2.directory 0).filename
      = cstr nameA ∧
    ((insertfs createfs (hostOf nameA (List.replicate 1048576 0)) nameA).2.inodes 0).file_size
      = MAX_FILE_SIZE :=
  (insertfs_max_file_size (hostOf nameA (List.replicate 1048576 0)) nameA
    (List.replicate 1048576 0) (hostOf_self _ _)).1 (List.length_replicate _ _) (by decide)

/-- C11: a failing call leaves the whole state (directory table, inode table and
`data`, which holds both bitmaps and all blocks) as it was.  `insertfs` of an
existing host file is rejected, without the copy loop being entered, when the
name is longer than `MAX_NAME_SIZE`, the size exceeds `MAX_FILE_SIZE` or `dffs`,
no directory entry is free, or no inode is free; `deletefs`, `undelfs` and
`attribfs` report not-found for a name that no in-use entry carries. -/
theorem failing_calls_leave_state (fs : FS) (host : Host) (filename : List Nat)
    (attri set : Int) :
    (∀ content, host filename = some content →
      (strlen filename > MAX_NAME_SIZE ∨ content.length > MAX_FILE_SIZE ∨
        content.length > dffs fs ∨
        firstIndex (fun i => (fs.directory i).in_use == 0) NUM_FILES 0 = none ∨
        findFreeInode fs = -1) →
      (insertfs fs host filename).1 ≠ InsertOutcome.inserted ∧
      (insertfs fs host filename).1 ≠ InsertOutcome.no_block ∧
      (insertfs fs host filename).2 = fs) ∧
    (lookup fs filename = none →
      deletefs fs filename = (false, fs) ∧
      undelfs fs filename = (false, fs) ∧
      attribfs fs filename attri set = (false, fs)) :=
  ⟨fun content hfile h => insertfs_rejected fs host filename content hfile h,
    fun h => ⟨deletefs_not_found fs filename h, undelfs_not_found fs filename h,
      attribfs_not_found fs filename attri set h⟩⟩

/-- While directory entry 0 is linked to an inode slot below 244 (a slot whose
bytes lie before block 1000), `attribfs` does what C12 says: it leaves the
directory table, both bitmaps and every data block (block 19 and the blocks from
1000 on) as they were, leaves the block list, `file_size` and `in_use` of every
inode below 244 as they were, and changes no bit of any attribute byte other
than bit 0 (HIDDEN) when the flag argument is 1 and bit 1 (READONLY) when it
is 2. -/
theorem attribfs_frame (fs : FS) (filename : List Nat) (attri set : Int)
    (_hlow : 0 ≤ (fs.directory 0).inode ∧ (fs.directory 0).inode < LOW_INODES) :
    (attribfs fs filename attri set).2.directory = fs.directory ∧
    (∀ b o, b = 19 ∨ 1000 ≤ b → (attribfs fs filename attri set).2.data b o = fs.data b o) ∧
    (∀ j, j < LOW_INODES →
      ((attribfs fs filename attri set).2.inodes j).blocks = (fs.inodes j).blocks ∧
      ((attribfs fs filename attri set).2.inodes j).in_use = (fs.inodes j).in_use ∧
      ((attribfs fs filename attri set).2.inodes j).file_size = (fs.inodes j).file_size) ∧
    (∀ j k, j < LOW_INODES → k < 8 → ¬ (attri = 1 ∧ k = 0) → ¬ (attri = 2 ∧ k = 1) →
      ((attribfs fs filename attri set).2.inodes j).attrib.testBit k
        = (fs.inodes j).attrib.testBit k) :=
  have h := attribBody_frame fs filename attri set 0
  ⟨h.1, fun b o _ => congrFun (congrFun h.2.1 b) o, fun j _ => h.2.2.1 j,
    fun j k _ hk h1 h2 => h.2.2.2 j k hk h1 h2⟩

/-- C12 (the code breaks it): `inodes[244].attribute` is the byte `data[1001][930]`,
which is also `free_blocks[1954]`.  In a fresh filesystem whose directory entry 0
(`a`) is linked to inode 244, `attrib +r a` finds the file and changes that byte
of data block 1001 and of the free-block bitmap from 1 to 3; with the flag of
block 2955 cleared first (block in use), `attrib +h a` sets it: the block is
marked free again. -/
theorem attribfs_changes_free_block_flag :
    (20 * BLOCK_SIZE + 244 * INODE_BYTES + 4098 = 1001 * BLOCK_SIZE + 930) ∧
    (1001 * BLOCK_SIZE + 930 = 1000 * BLOCK_SIZE + 1954) ∧
    (attribfs_data stateSlot244 nameA 2 1).1 = true ∧
    stateSlot244.data 1001 930 = 1 ∧
    (attribfs_data stateSlot244 nameA 2 1).2.data 1001 930 = 3 ∧
    free_blocks stateSlot244 1954 = 1 ∧
    free_blocks (attribfs_data stateSlot244 nameA 2 1).2 1954 = 3 ∧
    free_blocks (set_free_blocks stateSlot244 1954 0) 1954 = 0 ∧
    free_blocks (attribfs_data (set_free_blocks stateSlot244 1954 0) nameA 1 1).2 1954 = 1 := by
  refine ⟨by decide, by decide, by decide, by decide, by decide, by decide, by decide,
    by decide, by decide⟩

/-- C13: on a fresh filesystem, inserting a file `a`, deleting it and inserting a
file `b` of at most the size of `a` (names of at most `MAX_NAME_SIZE`
characters, sizes of at most `MAX_FILE_SIZE`): all three calls succeed, `a` was
found in directory slot 0 with inode 0, `b` is found in directory slot 0 with
inode 0, and every block in the block list of `b` is a block that was in the
block list of `a`. -/
theorem insertfs_reuses_after_deletefs (hostA hostB : Host) (a b contentA contentB : List Nat)
    (hA : hostA a = some contentA) (hB : hostB b = some contentB)
    (hna : strlen a ≤ MAX_NAME_SIZE) (hnb : strlen b ≤ MAX_NAME_SIZE)
    (hsA : contentA.length ≤ MAX_FILE_SIZE) (hsB : contentB.length ≤ contentA.length) :
    (insertfs createfs hostA a).1 = InsertOutcome.inserted ∧
    lookup (insertfs createfs hostA a).2 a = some 0 ∧
    ((insertfs createfs hostA a).2.directory 0).inode = 0 ∧
    (deletefs (insertfs createfs hostA a).2 a).1 = true ∧
    (insertfs (deletefs (insertfs createfs hostA a).2 a).2 hostB b).1 = InsertOutcome.inserted ∧
    lookup (insertfs (deletefs (insertfs createfs hostA a).2 a).2 hostB b).2 b = some 0 ∧
    ((insertfs (deletefs (insertfs createfs hostA a).2 a).2 hostB b).2.directory 0).inode = 0 ∧
    (∀ k, k < BLOCKS_PER_FILE →
      ((insertfs (deletefs (insertfs createfs hostA a).2 a).2 hostB b).2.inodes 0).blocks k ≠ -1 →
      ∃ j, j < BLOCKS_PER_FILE ∧
        ((insertfs createfs hostA a).2.inodes 0).blocks j
          = ((insertfs (deletefs (insertfs createfs hostA a).2 a).2 hostB b).2.inodes 0).blocks k) := by
  have h := insert_delete_insert hostA hostB a b contentA contentB hA hB hna hnb hsA hsB
  refine ⟨h.1, lookup_freshEntry _ a h.2.1, by rw [h.2.1]; rfl, h.2.2.2.1, h.2.2.2.2.1,
    lookup_freshEntry _ b h.2.2.2.2.2.1, by rw [h.2.2.2.2.2.1]; rfl, ?_⟩
  intro k _ hne
  have hk : k < blocksFor contentB.length := by
    by_contra hc
    rw [h.2.2.2.2.2.2 k, if_neg hc] at hne
    exact hne rfl
  have hposA : 0 < blocksFor contentA.length :=
    lt_of_lt_of_le (Nat.zero_lt_of_lt hk) (blocksFor_mono _ _ hsB)
  refine ⟨0, by decide, ?_⟩
  rw [h.2.2.1 0, if_pos hposA, h.2.2.2.2.2.2 k, if_pos hk]

/-- C13, at a concrete input: `a` of two bytes, then `b` of one byte. -/
theorem insertfs_reuses_after_deletefs_witness :
    (insertfs (deletefs (insertfs createfs (hostOf nameA [98, 99]) nameA).2 nameA).2
      (hostOf nameB [7]) nameB).1 = InsertOutcome.inserted ∧
    lookup (insertfs (deletefs (insertfs createfs (hostOf nameA [98, 99]) nameA).2 nameA).2
      (hostOf nameB [7]) nameB).2 nameB = some 0 ∧
    ((insertfs (deletefs (insertfs createfs (hostOf nameA [98, 99]) nameA).2 nameA).2
      (hostOf nameB [7]) nameB).2.directory 0).inode = 0 :=
  have h := insertfs_reuses_after_deletefs (hostOf nameA [98, 99]) (hostOf nameB [7]) nameA nameB
    [98, 99] [7] (hostOf_self _ _) (hostOf_self _ _) (by decide) (by decide) (by decide)
    (by decide)
  ⟨h.2.2.2.2.1, h.2.2.2.2.2.1, h.2.2.2.2.2.2.1⟩

/-- C14: on a fresh filesystem, inserting a host file of `n <= MAX_FILE_SIZE` bytes
(name of at most `MAX_NAME_SIZE` characters) ends normally with directory entry
0 in use and linked to inode 0, whose `file_size` is `n` and whose block list
holds a block number (1001) in the positions `0 .. ceil(n / BLOCK_SIZE) - 1` and
-1 in every later position. -/
theorem insertfs_block_list (host : Host) (filename content : List Nat)
    (hfile : host filename = some content) (hname : strlen filename ≤ MAX_NAME_SIZE)
    (hsize : content.length ≤ MAX_FILE_SIZE) :
    (insertfs createfs host filename).1 = InsertOutcome.inserted ∧
    ((insertfs createfs host filename).2.directory 0).in_use = 1 ∧
    ((insertfs createfs host filename).2.directory 0).inode = 0 ∧
    ((insertfs createfs host filename).2.inodes 0).file_size = content.length ∧
    (∀ k, k < BLOCKS_PER_FILE →
      (k < blocksFor content.length →
        ((insertfs createfs host filename).2.inodes 0).blocks k = 1001) ∧
      (blocksFor content.length ≤ k →
        ((insertfs createfs host filename).2.inodes 0).blocks k = -1)) := by
  have h := insertfs_slotZero createfs host filename content slotZeroFree_createfs hfile hname hsize
  refine ⟨h.1, ?_, ?_, h.2.2.2.1, ?_⟩
  · rw [h.2.1]; rfl
  · rw [h.2.1]; rfl
  · intro k _
    constructor
    · intro hk; rw [h.2.2.1 k, if_pos hk]
    · intro hk; rw [h.2.2.1 k, if_neg (by omega)]

/-- C14, at a concrete input: a 2000-byte file `a` gets two block entries and
`file_size` 2000. -/
theorem insertfs_block_list_witness :
    (insertfs createfs (hostOf nameA (List.replicate 2000 7)) nameA).1 = InsertOutcome.inserted ∧
    ((insertfs createfs (hostOf nameA (List.replicate 2000 7)) nameA).2.inodes 0).file_size
      = 2000 ∧
    ((insertfs createfs (hostOf nameA (List.replicate 2000 7)) nameA).2.inodes 0).blocks 0 = 1001 ∧
    ((insertfs createfs (hostOf nameA (List.replicate 2000 7)) nameA).2.inodes 0).blocks 1 = 1001 ∧
    ((insertfs createfs (hostOf nameA (List.replicate 2000 7)) nameA).2.inodes 0).blocks 2 = -1 := by
  have h := insertfs_block_list (hostOf nameA (List.replicate 2000 7)) nameA
    (List.replicate 2000 7) (hostOf_self _ _) (by decide)
    (by rw [List.length_replicate]; decide)
  have hb : blocksFor (List.replicate 2000 7).length = 2 := by
    rw [List.length_replicate]; decide
  rw [hb] at h
  exact ⟨h.1, h.2.2.2.1.trans (List.length_replicate _ _),
    (h.2.2.2.2 0 (by decide)).1 (by decide),
    (h.2.2.2.2 1 (by decide)).1 (by decide), (h.2.2.2.2 2 (by decide)).2 (by decide)⟩

/-- C15: a call of `dffs` leaves the state as it was, so a second call right after
returns the same value; the value is determined by the bytes
`free_blocks[0 .. NUM_BLOCKS)` alone. -/
theorem dffs_call_pure (fs : FS) :
    (dffs_call fs).2 = fs ∧
    (dffs_call (dffs_call fs).2).1 = (dffs_call fs).1 ∧
    (∀ fs2 : FS, (∀ i, i < NUM_BLOCKS → free_blocks fs2 i = free_blocks fs i) →
      (dffs_call fs2).1 = (dffs_call fs).1) :=
  ⟨rfl, rfl, fun fs2 h => dffs_congr fs2 fs (fun i hi => by rw [h i hi])⟩

/-- C16 (the code breaks it): on a fresh filesystem `dffs` returns
`NUM_BLOCKS * BLOCK_SIZE` = 67108864, the size of the whole block store, not
`(NUM_BLOCKS - FIRST_DATA_BLOCK) * BLOCK_SIZE` = 66083840: the bitmap is
initialised and counted over `NUM_BLOCKS` flags although flag `i` stands for
block `i + FIRST_DATA_BLOCK`. -/
theorem dffs_createfs_counts_all_flags :
    dffs createfs = NUM_BLOCKS * BLOCK_SIZE ∧
    NUM_BLOCKS * BLOCK_SIZE = 67108864 ∧
    (NUM_BLOCKS - FIRST_DATA_BLOCK) * BLOCK_SIZE = 66083840 ∧
    dffs createfs ≠ (NUM_BLOCKS - FIRST_DATA_BLOCK) * BLOCK_SIZE := by
  refine ⟨dffs_createfs_mul, blocks_mul, by decide, ?_⟩
  rw [dffs_createfs_mul]
  decide

/-- C18 (the code breaks it): after `createfs; insert a` (one-byte file) block 1001
is in the block list of the inode of the in-use directory entry 0, and its
free-block flag `free_blocks[1001 - FIRST_DATA_BLOCK]` is still set. -/
theorem block_in_use_marked_free :
    insertfs createfs (hostOf nameA [98]) nameA = (InsertOutcome.inserted, stateOne nameA [98]) ∧
    ((stateOne nameA [98]).directory 0).in_use = 1 ∧
    ((stateOne nameA [98]).directory 0).inode = 0 ∧
    ((stateOne nameA [98]).inodes 0).blocks 0 = 1001 ∧
    free_blocks (stateOne nameA [98]) (1001 - FIRST_DATA_BLOCK) = 1 :=
  ⟨insertfs_createfs_small nameA [98] (by decide) (by decide) (by decide),
    by decide, by decide, by decide, by decide⟩

/-- C19 (the code breaks it): on a fresh filesystem the host file `a` of 1025 bytes
needs two blocks and is inserted normally, and both entries of its block list
hold the same block, 1001: no free-block flag is cleared between the two calls
of `findFreeBlock`. -/
theorem block_list_repeats_block :
    (insertfs createfs (hostOf nameA (List.replicate 1025 7)) nameA).1 = InsertOutcome.inserted ∧
    blocksFor (List.replicate 1025 7).length = 2 ∧
    ((insertfs createfs (hostOf nameA (List.replicate 1025 7)) nameA).2.inodes 0).blocks 0 = 1001 ∧
    ((insertfs createfs (hostOf nameA (List.replicate 1025 7)) nameA).2.inodes 0).blocks 1 = 1001 ∧
    ((insertfs createfs (hostOf nameA (List.replicate 1025 7)) nameA).2.inodes 0).blocks 0
      = ((insertfs createfs (hostOf nameA (List.replicate 1025 7)) nameA).2.inodes 0).blocks 1 := by
  have h := insertfs_slotZero createfs (hostOf nameA (List.replicate 1025 7)) nameA
    (List.replicate 1025 7) slotZeroFree_createfs (hostOf_self _ _) (by decide)
    (by rw [List.length_replicate]; decide)
  have hb : blocksFor (List.replicate 1025 7).length = 2 := by
    rw [List.length_replicate]; decide
  have h0 := h.2.2.1 0
  have h1 := h.2.2.1 1
  rw [hb, if_pos (by decide)] at h0 h1
  exact ⟨h.1, hb, h0, h1, h0.trans h1.symm⟩

/-- C20 (the code breaks it): after `createfs; insert a` the in-use directory entry
0 has inode link 0, while `inodes[0].in_use` is 0 and `free_inodes[0]` is still
set: `insertfs` stores neither. -/
theorem inode_in_use_not_recorded :
    insertfs createfs (hostOf nameA [98]) nameA = (InsertOutcome.inserted, stateOne nameA [98]) ∧
    ((stateOne nameA [98]).directory 0).in_use = 1 ∧
    ((stateOne nameA [98]).directory 0).inode = 0 ∧
    ((stateOne nameA [98]).inodes 0).in_use = 0 ∧
    free_inodes (stateOne nameA [98]) 0 = 1 :=
  ⟨insertfs_createfs_small nameA [98] (by decide) (by decide) (by decide),
    by decide, by decide, by decide, by decide⟩


/-- C21 (fails on the code): after `createfs; insert a; insert a` the directory
entries 0 and 1 are both in use and carry the name `a`: `insertfs` takes the
first entry not in use without a search for the name. -/
theorem insertfs_twice_same_name :
    ((runCalls createfs callsTwice).directory 0).in_use = 1 ∧
    ((runCalls createfs callsTwice).directory 1).in_use = 1 ∧
    strcmp_eq ((runCalls createfs callsTwice).directory 0).filename
      ((runCalls createfs callsTwice).directory 1).filename = true ∧
    ¬ NamesUnique (runCalls createfs callsTwice) := by
  have h0 : ((runCalls createfs callsTwice).directory 0).in_use = 1 := by
    rw [directory_callsTwice]
    decide
  have h1 : ((runCalls createfs callsTwice).directory 1).in_use = 1 := by
    rw [directory_callsTwice]
    decide
  have h2 : strcmp_eq ((runCalls createfs callsTwice).directory 0).filename
      ((runCalls createfs callsTwice).directory 1).filename = true := by
    rw [directory_callsTwice]
    decide
  refine ⟨h0, h1, h2, fun hu => ?_⟩
  have := hu 0 (by decide) 1 (by decide) (by rw [h0]; decide) (by rw [h1]; decide) h2
  exact absurd this (by decide)

/-- C21, as amended: after every sequence of `insertfs` and `deletefs` calls on a
fresh filesystem in which no `insertfs` is called with a name that an in-use
directory entry carries at the time of the call, no two in-use directory entries
carry the same filename. -/
theorem names_unique_without_reinsert (calls : List Call)
    (h : freshNames createfs calls = true) : NamesUnique (runCalls createfs calls) :=
  (dirInv_runCalls calls createfs dirInv_createfs h).2.2

/-- C21, as amended, at a concrete input: `insert a; insert b; delete a`. -/
theorem names_unique_without_reinsert_witness :
    freshNames createfs callsThree = true ∧ NamesUnique (runCalls createfs callsThree) :=
  ⟨freshNames_callsThree, names_unique_without_reinsert callsThree freshNames_callsThree⟩

/-- C22 (the code breaks it): after `createfs; insert a; insert b` with one-byte
host files, directory entry 1 (`b`) is in use and linked to inode 0, whose
`file_size` is 1, so `ceil(file_size / BLOCK_SIZE)` is 1, while its block list
holds 2 valid entries: the second insert was given the inode of `a` again and
appended its block to the list of `a`. -/
theorem block_count_exceeds_file_size :
    insertfs createfs (hostOf nameA [98]) nameA = (InsertOutcome.inserted, stateOne nameA [98]) ∧
    insertfs (stateOne nameA [98]) (hostOf nameB [99]) nameB
      = (InsertOutcome.inserted, stateAB) ∧
    (stateAB.directory 1).in_use = 1 ∧
    (stateAB.directory 1).inode = 0 ∧
    (stateAB.inodes 0).file_size = 1 ∧
    blocksFor (stateAB.inodes 0).file_size = 1 ∧
    validBlocks (stateAB.inodes 0) = 2 ∧
    validBlocks (stateAB.inodes 0) ≠ blocksFor (stateAB.inodes 0).file_size := by
  refine ⟨insertfs_createfs_small nameA [98] (by decide) (by decide) (by decide),
    insertfs_second_eq, by decide, by decide, by decide, by decide, validBlocks_stateAB, ?_⟩
  rw [validBlocks_stateAB]
  decide

/-- C23: first fit.  `findFreeBlock` returns `FIRST_DATA_BLOCK + i` for the lowest
`i < NUM_BLOCKS` with `free_blocks[i]` set and -1 exactly when no flag below
`NUM_BLOCKS` is set; `findFreeInode` returns the lowest `i < NUM_FILES` with
`free_inodes[i]` set and -1 exactly when none is; a block number returned by
`findFreeBlock` is never below `FIRST_DATA_BLOCK`. -/
theorem findFree_first_fit (fs : FS) :
    (∀ i, i < NUM_BLOCKS → free_blocks fs i ≠ 0 → (∀ j, j < i → free_blocks fs j = 0) →
      findFreeBlock fs = (FIRST_DATA_BLOCK : Int) + i) ∧
    (findFreeBlock fs = -1 ↔ ∀ i, i < NUM_BLOCKS → free_blocks fs i = 0) ∧
    (∀ i, i < NUM_FILES → free_inodes fs i ≠ 0 → (∀ j, j < i → free_inodes fs j = 0) →
      findFreeInode fs = (i : Int)) ∧
    (findFreeInode fs = -1 ↔ ∀ i, i < NUM_FILES → free_inodes fs i = 0) ∧
    (findFreeBlock fs = -1 ∨ (FIRST_DATA_BLOCK : Int) ≤ findFreeBlock fs) :=
  ⟨findFreeBlock_eq_of_lowest fs, findFreeBlock_eq_neg_one_iff fs,
    findFreeInode_eq_of_lowest fs, findFreeInode_eq_neg_one_iff fs, findFreeBlock_ge fs⟩

/-- C24 (the code breaks it): on a fresh filesystem, `encrypt a 5` followed by
`decrypt a 5` for the one-byte host file `a` (byte 98).  Both calls end normally.
The encrypt leaves the file 1024 bytes long (the whole buffer is written back:
byte 98 and 1023 padding bytes, XOR-ed with 5); the decrypt then works on 1024
bytes, that is on two blocks, and leaves 2048 bytes: byte 98, 1023 bytes 0, and
1024 bytes 5.  The first byte is restored, the length is not. -/
theorem decryptfs_after_encryptfs_pads :
    hostOf nameA [98] nameA = some [98] ∧
    (encryptfs createfs (hostOf nameA [98]) nameA 5).1 = CryptOutcome.done ∧
    (encryptfs createfs (hostOf nameA [98]) nameA 5).2.1 = stateEncrypted ∧
    (encryptfs createfs (hostOf nameA [98]) nameA 5).2.2 = hostEncrypted ∧
    hostEncrypted nameA = some (103 :: List.replicate 1023 5) ∧
    (decryptfs stateEncrypted hostEncrypted nameA 5).1 = CryptOutcome.done ∧
    (decryptfs stateEncrypted hostEncrypted nameA 5).2.2 nameA
      = some (98 :: (List.replicate 1023 0 ++ List.replicate 1024 5)) ∧
    (98 :: (List.replicate 1023 0 ++ List.replicate 1024 5) : List Nat).length = 2048 ∧
    (98 :: (List.replicate 1023 0 ++ List.replicate 1024 5) : List Nat) ≠ [98] := by
  rw [encryptfs_eq, decryptfs_eq]
  refine ⟨hostOf_self _ _, (encryptfs_createfs_small 5).1, (encryptfs_createfs_small 5).2,
    encryptfs_createfs_host, hostEncrypted_self, decryptfs_stateEncrypted.1,
    decryptfs_stateEncrypted.2, ?_, ?_⟩
  · simp only [List.length_cons, List.length_append, List.length_replicate]
  · intro h
    have hl := congrArg List.length h
    simp only [List.length_cons, List.length_append, List.length_replicate,
      List.length_nil] at hl
    omega

/-- C25 (the code breaks it): after `createfs; insert a` (one byte, 98) the file `a`
is in use in directory entry 0 with inode 0 and block list `[1001]`.  The insert
of `b` (one byte, 99), a different name, ends normally and leaves directory
entry 0 as it was, but it is given inode 0 and block 1001 again: byte 0 of block
1001, the block of `a`, changes from 98 to 99, and entry 1 of the block list of
inode 0, the inode of `a`, changes from -1 to 1001. -/
theorem insertfs_second_changes_first :
    insertfs createfs (hostOf nameA [98]) nameA = (InsertOutcome.inserted, stateOne nameA [98]) ∧
    nameA ≠ nameB ∧
    lookup (stateOne nameA [98]) nameA = some 0 ∧
    ((stateOne nameA [98]).directory 0).inode = 0 ∧
    ((stateOne nameA [98]).inodes 0).blocks 0 = 1001 ∧
    insertfs (stateOne nameA [98]) (hostOf nameB [99]) nameB
      = (InsertOutcome.inserted, stateAB) ∧
    stateAB.directory 0 = (stateOne nameA [98]).directory 0 ∧
    (stateOne nameA [98]).data 1001 0 = 98 ∧
    stateAB.data 1001 0 = 99 ∧
    ((stateOne nameA [98]).inodes 0).blocks 1 = -1 ∧
    (stateAB.inodes 0).blocks 1 = 1001 :=
  ⟨insertfs_createfs_small nameA [98] (by decide) (by decide) (by decide), by decide,
    lookup_stateOne [98], by decide, by decide, insertfs_second_eq, rfl, by decide, by decide,
    by decide, by decide⟩
end Mfs
